import Mathlib

/-!
# Verification of the QuantFolio quantitative-analytics core

Shallow embedding of the numerical engines of the repository
(`src/lib/finance/pairs.ts`, `blackScholes.ts`, `monteCarlo.ts`,
`arbitrage.ts`, the SVI fitter, and the shared `BacktestConfig`
declaration) together with proofs and refutations of the frozen claims.

Modelling conventions:
* JavaScript `number`s are modelled by `ℚ`.  The transcendental library
  calls (`Math.log`, `Math.sqrt`, `Math.exp`, `erf`) are not rational
  functions; every definition that the source evaluates through them takes
  the corresponding function as an explicit oracle parameter (`lnFn`,
  `sqrtFn`, `expFn`, ...).  The closed-form Black-Scholes engine, whose
  claim (put-call parity) is about the real-valued formulas themselves, is
  embedded over `ℝ` with `Real.exp` / `Real.log` / `Real.sqrt` instead.
* A JavaScript division whose divisor is `0` produces a non-finite value
  (`NaN` or `±Infinity`), never an ordinary number.  Where the source can
  divide by zero we use `jsDiv : ℚ → ℚ → Option ℚ` with `none` standing
  for the non-finite outcome; `NaN`-style comparisons (`none` compared to
  anything) are `false`, exactly as in JavaScript for `NaN`.
* `null`/`undefined`-valued fields are `Option ℚ`.
-/

/-- Helper for Mean (`mean` in `pairs.ts`): `data.reduce((a,b)=>a+b,0)/data.length`. -/
def mean (data : List ℚ) : ℚ := data.sum / data.length

/-- Helper for Standard Deviation (`std` in `pairs.ts`): population variance
(divide by N) followed by `Math.sqrt`, the latter supplied as the oracle
`sqrtFn`. -/
def std (sqrtFn : ℚ → ℚ) (data : List ℚ) : ℚ :=
  sqrtFn ((data.map (fun v => (v - mean data) ^ 2)).sum / data.length)

/-- JavaScript division: divisor `0` yields a non-finite value (`NaN` when the
numerator is also `0`, `±Infinity` otherwise), modelled as `none`. -/
def jsDiv (a b : ℚ) : Option ℚ := if b = 0 then none else some (a / b)

/-- `z >= c` on a possibly non-finite z-score; `NaN >= c` is `false` in JS. -/
def zGe (z : Option ℚ) (c : ℚ) : Bool :=
  match z with
  | none => false
  | some q => decide (c ≤ q)

/-- `z <= c` on a possibly non-finite z-score. -/
def zLe (z : Option ℚ) (c : ℚ) : Bool :=
  match z with
  | none => false
  | some q => decide (q ≤ c)

/-- `z > c` on a possibly non-finite z-score. -/
def zGt (z : Option ℚ) (c : ℚ) : Bool :=
  match z with
  | none => false
  | some q => decide (c < q)

/-- `z < c` on a possibly non-finite z-score. -/
def zLt (z : Option ℚ) (c : ℚ) : Bool :=
  match z with
  | none => false
  | some q => decide (q < c)

/-- Association-list model of a JavaScript `Map`: `get`. -/
def mapGet {κ β : Type} [DecidableEq κ] : List (κ × β) → κ → Option β
  | [], _ => none
  | p :: rest, k => if p.1 = k then some p.2 else mapGet rest k

/-- Association-list model of a JavaScript `Map`: `set` (update in place when
the key exists, append otherwise, preserving insertion order). -/
def mapSet {κ β : Type} [DecidableEq κ] : List (κ × β) → κ → β → List (κ × β)
  | [], k, v => [(k, v)]
  | p :: rest, k, v => if p.1 = k then (k, v) :: rest else p :: mapSet rest k v

/-- The JS nullish-coalescing operator `a ?? b` on nullable numbers. -/
def jsCoalesce {α : Type} : Option α → Option α → Option α
  | some v, _ => some v
  | none, b => b

section PairsEngine

/-- Trade side (`'Long' | 'Short'` in `pairs.ts`). -/
inductive TradeSide where
  | Long : TradeSide
  | Short : TradeSide
deriving DecidableEq, Repr

/-- A closed round-trip recorded by the backtest (interface `Trade`). -/
structure Trade where
  type : TradeSide
  entryDate : String
  exitDate : String
  entryZ : Option ℚ
  exitZ : Option ℚ
  pnl : ℚ
  pnlA : ℚ
  pnlB : ℚ
  sideA : TradeSide
  sideB : TradeSide
  entryPriceA : ℚ
  entryPriceB : ℚ
  exitPriceA : ℚ
  exitPriceB : ℚ
deriving DecidableEq, Repr

/-- Interface `BacktestResult` (`sharpe` models the source field
`sharpeRatio`). -/
structure BacktestResult where
  equityCurve : List ℚ
  trades : ℕ
  winRate : ℚ
  totalReturn : ℚ
  maxDrawdown : ℚ
  sharpe : ℚ
  history : List Trade
deriving DecidableEq, Repr

/-- The `stats` sub-object of `PairsAnalysisResult`.  `lastPriceA/B` read
`prices[length-1]`, which is `undefined` on an empty array, hence `Option`. -/
structure PairsStats where
  meanSpread : ℚ
  stdSpread : ℚ
  lastPriceA : Option ℚ
  lastPriceB : Option ℚ
deriving DecidableEq, Repr

/-- Interface `PairsAnalysisResult` (`hedge` models the source field
`hedgeRatio`). -/
structure PairsAnalysisResult where
  hedge : ℚ
  alpha : ℚ
  spread : List ℚ
  zScore : List (Option ℚ)
  currentZScore : Option ℚ
  halfLife : ℚ
  isCointegrated : Bool
  stats : PairsStats
  backtest : BacktestResult
deriving DecidableEq, Repr

/-- The OLS numerator `Σ (x-meanX)(y-meanY)` from `calculateOLS`. -/
def olsNum (logX logY : List ℚ) : ℚ :=
  ((logX.zip logY).map (fun p => (p.1 - mean logX) * (p.2 - mean logY))).sum

/-- The OLS denominator `Σ (x-meanX)²` from `calculateOLS`. -/
def olsDen (logX : List ℚ) : ℚ :=
  (logX.map (fun x => (x - mean logX) ^ 2)).sum

/-- `calculateOLS(logX, logY)`: closed-form OLS slope and intercept.  The
source loops `i < logX.length` over aligned arrays; `zip` realises the same
sums for aligned inputs.  A zero-variance regressor divides by zero (`NaN` in
the source); theorems about the slope therefore assume `olsDen ≠ 0`. -/
def calculateOLS (logX logY : List ℚ) : ℚ × ℚ :=
  let beta := olsNum logX logY / olsDen logX
  (beta, mean logY - beta * mean logX)

/-- The AR(1) slope fitted by `calculateHalfLife`: OLS of `spread[t]` on
`spread[t-1]` (`x_t = spread.slice(1)`, `x_prev = spread.slice(0, n-1)`). -/
def hlSlope (spread : List ℚ) : ℚ :=
  (calculateOLS spread.dropLast (spread.drop 1)).1

/-- `calculateHalfLife(spread)`: sentinel `999` when the AR(1) slope is `≥ 1`
or `≤ 0`, otherwise `ln 2 / (−ln slope)` through the `Math.log` oracle. -/
def calculateHalfLife (lnFn : ℚ → ℚ) (spread : List ℚ) : ℚ :=
  let slope := hlSlope spread
  if 1 ≤ slope ∨ slope ≤ 0 then 999
  else
    let theta := -lnFn slope
    lnFn 2 / theta

/-- Mutable loop state of `calculateBacktest`. -/
structure BTState where
  equity : ℚ
  position : Int
  entryPriceA : ℚ
  entryPriceB : ℚ
  entryDate : String
  entryZ : Option ℚ
  wins : ℕ
  totalTrades : ℕ
  peakEquity : ℚ
  maxDrawdown : ℚ
  history : List Trade
  entrySharesA : ℚ
  entrySharesB : ℚ
  equityCurve : List ℚ
deriving DecidableEq, Repr

/-- Initial state of `calculateBacktest` (`equity = 10000`,
`equityCurve = [equity]`, flat position). -/
def btInit : BTState :=
  { equity := 10000, position := 0, entryPriceA := 0, entryPriceB := 0
    entryDate := "", entryZ := none, wins := 0, totalTrades := 0
    peakEquity := 10000, maxDrawdown := 0, history := []
    entrySharesA := 0, entrySharesB := 0, equityCurve := [10000] }

/-- One bar of the backtest: the z-score at the bar (possibly non-finite),
the two prices and the date. -/
structure BTBar where
  z : Option ℚ
  pA : ℚ
  pB : ℚ
  date : String
deriving DecidableEq, Repr

/-- The Trade pushed when `calculateBacktest` closes the open position at a
bar. -/
def closedTrade (hedge : ℚ) (s : BTState) (bar : BTBar) : Trade :=
  let dirA : ℚ := if s.position = 1 then 1 else -1
  let dirB : ℚ :=
    if s.position = 1 then (if 0 < hedge then -1 else 1)
    else (if 0 < hedge then 1 else -1)
  let pnlA := s.entrySharesA * dirA * (bar.pA - s.entryPriceA)
  let pnlB := s.entrySharesB * dirB * (bar.pB - s.entryPriceB)
  { type := if s.position = 1 then TradeSide.Long else TradeSide.Short
    entryDate := s.entryDate, exitDate := bar.date
    entryZ := s.entryZ, exitZ := bar.z
    pnl := pnlA + pnlB, pnlA := pnlA, pnlB := pnlB
    sideA := if dirA = 1 then TradeSide.Long else TradeSide.Short
    sideB := if dirB = 1 then TradeSide.Long else TradeSide.Short
    entryPriceA := s.entryPriceA, entryPriceB := s.entryPriceB
    exitPriceA := bar.pA, exitPriceB := bar.pB }

/-- Exit half of a `calculateBacktest` iteration: close when the z-score has
crossed the mean (`position===1 && z>=0 || position===-1 && z<=0`), realizing
the PnL into equity and recording the Trade. -/
def btExitPhase (hedge : ℚ) (s : BTState) (bar : BTBar) : BTState :=
  if s.position ≠ 0 ∧ (s.position = 1 ∧ zGe bar.z 0 ∨ s.position = -1 ∧ zLe bar.z 0) then
    let t := closedTrade hedge s bar
    { s with
      equity := s.equity + t.pnl
      totalTrades := s.totalTrades + 1
      wins := if 0 < t.pnl then s.wins + 1 else s.wins
      history := s.history ++ [t]
      position := 0, entrySharesA := 0, entrySharesB := 0 }
  else s

/-- Entry half of a `calculateBacktest` iteration: when flat, enter short
spread on `z > 2.0` or long spread on `z < -2.0`, sizing `$1000` per leg. -/
def btEntryPhase (hedge : ℚ) (s : BTState) (bar : BTBar) : BTState :=
  if s.position = 0 then
    if zGt bar.z 2 then
      { s with
        position := -1, entryPriceA := bar.pA, entryPriceB := bar.pB
        entrySharesA := 1000 / bar.pA
        entrySharesB := 1000 * |hedge| / bar.pB
        entryDate := bar.date, entryZ := bar.z }
    else if zLt bar.z (-2) then
      { s with
        position := 1, entryPriceA := bar.pA, entryPriceB := bar.pB
        entrySharesA := 1000 / bar.pA
        entrySharesB := 1000 * |hedge| / bar.pB
        entryDate := bar.date, entryZ := bar.z }
    else s
  else s

/-- Tail of a `calculateBacktest` iteration: push the (realized) equity onto
the curve and update the running peak / max drawdown. -/
def btPushPhase (s : BTState) : BTState :=
  let peak := if s.peakEquity < s.equity then s.equity else s.peakEquity
  let dd := (peak - s.equity) / peak
  { s with
    equityCurve := s.equityCurve ++ [s.equity]
    peakEquity := peak
    maxDrawdown := if s.maxDrawdown < dd then dd else s.maxDrawdown }

/-- One full iteration of the `calculateBacktest` loop. -/
def btStep (hedge : ℚ) (s : BTState) (bar : BTBar) : BTState :=
  btPushPhase (btEntryPhase hedge (btExitPhase hedge s bar) bar)

/-- The bars visited by `calculateBacktest`: indices `1 .. zScores.length-1`. -/
def btBars (zScores : List (Option ℚ)) (pricesA pricesB : List ℚ)
    (dates : List String) : List BTBar :=
  ((List.range zScores.length).drop 1).map fun i =>
    { z := zScores.getD i none, pA := pricesA.getD i 0
      pB := pricesB.getD i 0, date := dates.getD i "" }

/-- All intermediate states of the backtest loop (initial state included). -/
def btStates (hedge : ℚ) (bars : List BTBar) : List BTState :=
  bars.scanl (btStep hedge) btInit

/-- Per-bar simple returns of the equity curve used for the Sharpe ratio. -/
def curveReturns : List ℚ → List ℚ
  | [] => []
  | [_] => []
  | a :: b :: rest => (b - a) / a :: curveReturns (b :: rest)

/-- `calculateBacktest(zScores, pricesA, pricesB, hedgeRatio, dates)`:
simulates the z-score strategy and assembles the `BacktestResult`
(`sqrtFn` stands for the `Math.sqrt` used by `std` and `sqrt(252)`). -/
def calculateBacktest (sqrtFn : ℚ → ℚ) (zScores : List (Option ℚ))
    (pricesA pricesB : List ℚ) (hedge : ℚ) (dates : List String) :
    BacktestResult :=
  let s := (btBars zScores pricesA pricesB dates).foldl (btStep hedge) btInit
  let returns := curveReturns s.equityCurve
  let meanRet := if returns.length > 0 then mean returns else 0
  let stdRet := if returns.length > 0 then std sqrtFn returns else 0
  { equityCurve := s.equityCurve
    trades := s.totalTrades
    winRate := if 0 < s.totalTrades then (s.wins : ℚ) / s.totalTrades else 0
    totalReturn := (s.equity - 10000) / 10000
    maxDrawdown := s.maxDrawdown
    sharpe := if 0 < stdRet then meanRet / stdRet * sqrtFn 252 else 0
    history := s.history }

/-- The spread series computed inside `analyzePairs`:
`logA[i] - beta*logB[i] - alpha` with `(beta, alpha) = OLS(logB, logA)`. -/
def pairsSpread (logA logB : List ℚ) : List ℚ :=
  let ba := calculateOLS logB logA
  (logA.zip logB).map fun p => p.1 - ba.1 * p.2 - ba.2

/-- `analyzePairs(pricesA, pricesB, dates)`: log-price OLS hedge, spread,
global-window z-scores (unguarded division by the spread's standard
deviation), half-life, cointegration flag and backtest.  `lnFn`/`sqrtFn` are
the `Math.log`/`Math.sqrt` oracles. -/
def analyzePairs (lnFn sqrtFn : ℚ → ℚ) (pricesA pricesB : List ℚ)
    (dates : List String) : PairsAnalysisResult :=
  let logA := pricesA.map lnFn
  let logB := pricesB.map lnFn
  let ba := calculateOLS logB logA
  let spread := pairsSpread logA logB
  let meanSpread := mean spread
  let stdSpread := std sqrtFn spread
  let zScore := spread.map fun s => jsDiv (s - meanSpread) stdSpread
  let halfLife := calculateHalfLife lnFn spread
  { hedge := ba.1
    alpha := ba.2
    spread := spread
    zScore := zScore
    currentZScore := (zScore.getLast?).getD none
    halfLife := halfLife
    isCointegrated := decide (halfLife < 60) && decide (0 < halfLife)
    stats :=
      { meanSpread := meanSpread, stdSpread := stdSpread
        lastPriceA := pricesA.getLast?, lastPriceB := pricesB.getLast? }
    backtest := calculateBacktest sqrtFn zScore pricesA pricesB ba.1 dates }

end PairsEngine

section ConfigBacktest

/-- `BacktestConfig` from `src/lib/finance/pairsConfig` (the shared typed
configuration declaration): entry/exit thresholds, optional risk-management
percentages (`null` = disabled), capital per leg, optional rolling z-score
window and optional maximum holding period (bars). -/
structure BacktestConfig where
  entryThresholdUpper : ℚ
  entryThresholdLower : ℚ
  exitThreshold : ℚ
  stopLossPercent : Option ℚ
  trailingStopPercent : Option ℚ
  capitalPerLeg : ℚ
  rollingWindow : Option ℕ
  maxHoldingPeriod : Option ℕ
deriving DecidableEq, Repr

/-- `DEFAULT_BACKTEST_CONFIG` from the source declaration. -/
def DEFAULT_BACKTEST_CONFIG : BacktestConfig :=
  { entryThresholdUpper := 2, entryThresholdLower := -2, exitThreshold := 0
    stopLossPercent := none, trailingStopPercent := none
    capitalPerLeg := 1000, rollingWindow := none, maxHoldingPeriod := none }

/-- Modelled from the spec: mutable position/backtest state of the
config-driven backtest engine (spec section 4.5, "Position"), whose
implementation is absent from the sources (only the `BacktestConfig`
declaration and UI callers are present).  Adds the entry index and the peak
trade PnL-percentage to the plain backtest state. -/
structure CfgState where
  equity : ℚ
  position : Int
  entryPriceA : ℚ
  entryPriceB : ℚ
  entryDate : String
  entryZ : Option ℚ
  entryIndex : ℕ
  peakPnlPct : ℚ
  wins : ℕ
  totalTrades : ℕ
  peakEquity : ℚ
  maxDrawdown : ℚ
  history : List Trade
  entrySharesA : ℚ
  entrySharesB : ℚ
  equityCurve : List ℚ
deriving DecidableEq, Repr

/-- Modelled from the spec: initial state of the config-driven backtest. -/
def cfgInit : CfgState :=
  { equity := 10000, position := 0, entryPriceA := 0, entryPriceB := 0
    entryDate := "", entryZ := none, entryIndex := 0, peakPnlPct := 0
    wins := 0, totalTrades := 0, peakEquity := 10000, maxDrawdown := 0
    history := [], entrySharesA := 0, entrySharesB := 0
    equityCurve := [10000] }

/-- A bar of the config-driven backtest: its index plus the plain bar data. -/
structure CfgBar where
  i : ℕ
  z : Option ℚ
  pA : ℚ
  pB : ℚ
  date : String
deriving DecidableEq, Repr

/-- Modelled from the spec: the Trade produced when the config-driven backtest
closes its open position at a bar, with the same leg-direction rules as the
source `calculateBacktest`. -/
def cfgClosedTrade (hedge : ℚ) (s : CfgState) (bar : CfgBar) : Trade :=
  let dirA : ℚ := if s.position = 1 then 1 else -1
  let dirB : ℚ :=
    if s.position = 1 then (if 0 < hedge then -1 else 1)
    else (if 0 < hedge then 1 else -1)
  let pnlA := s.entrySharesA * dirA * (bar.pA - s.entryPriceA)
  let pnlB := s.entrySharesB * dirB * (bar.pB - s.entryPriceB)
  { type := if s.position = 1 then TradeSide.Long else TradeSide.Short
    entryDate := s.entryDate, exitDate := bar.date
    entryZ := s.entryZ, exitZ := bar.z
    pnl := pnlA + pnlB, pnlA := pnlA, pnlB := pnlB
    sideA := if dirA = 1 then TradeSide.Long else TradeSide.Short
    sideB := if dirB = 1 then TradeSide.Long else TradeSide.Short
    entryPriceA := s.entryPriceA, entryPriceB := s.entryPriceB
    exitPriceA := bar.pA, exitPriceB := bar.pB }

/-- Modelled from the spec: running PnL as a percentage of the capital
deployed at entry (`capitalPerLeg` for leg A plus `capitalPerLeg·|hedge|`
for leg B; the spec fixes sizes at entry from `capitalPerLeg` and the hedge
ratio but leaves the PnL% denominator implicit). -/
def cfgPnlPct (cfg : BacktestConfig) (hedge pnl : ℚ) : ℚ :=
  100 * pnl / (cfg.capitalPerLeg * (1 + |hedge|))

/-- Modelled from the spec: exit trigger 1 — "Z crosses back past
exitThreshold (direction-appropriate)". -/
def zExitHit (cfg : BacktestConfig) (pos : Int) (z : Option ℚ) : Bool :=
  (decide (pos = 1) && zGe z cfg.exitThreshold) ||
    (decide (pos = -1) && zLe z cfg.exitThreshold)

/-- Modelled from the spec: exit trigger 2 — "stop-loss
(PnL% ≤ −stopLossPercent)", disabled when the field is `null`. -/
def stopLossHit (cfg : BacktestConfig) (pnlPct : ℚ) : Bool :=
  match cfg.stopLossPercent with
  | none => false
  | some sl => decide (pnlPct ≤ -sl)

/-- Modelled from the spec: exit trigger 3 — "trailing-stop (PnL% has fallen
stopLossPercent below its peak, only once peak PnL% > 0)".  The trigger is
governed by the `trailingStopPercent` field ("Trailing stop from peak %,
null = disabled" in the source declaration), so the fall threshold is read as
the configured trailing-stop percentage. -/
def trailingStopHit (cfg : BacktestConfig) (pnlPct peak : ℚ) : Bool :=
  match cfg.trailingStopPercent with
  | none => false
  | some ts => decide (0 < peak) && decide (pnlPct ≤ peak - ts)

/-- Modelled from the spec: exit trigger 4 — "max holding period
(bars-in-trade ≥ maxHoldingPeriod)", disabled when the field is `null`. -/
def maxHoldHit (cfg : BacktestConfig) (barsInTrade : ℕ) : Bool :=
  match cfg.maxHoldingPeriod with
  | none => false
  | some mh => decide (mh ≤ barsInTrade)

/-- Modelled from the spec: the disjunction of the four exit triggers, checked
in the spec's order (first true wins; with every trigger closing the position
the same way, the order is observable only through short-circuiting). -/
def cfgShouldExit (cfg : BacktestConfig) (s : CfgState) (bar : CfgBar)
    (pnlPct peak : ℚ) : Bool :=
  zExitHit cfg s.position bar.z || stopLossHit cfg pnlPct ||
    trailingStopHit cfg pnlPct peak || maxHoldHit cfg (bar.i - s.entryIndex)

/-- Modelled from the spec: exit half of a config-driven backtest iteration.
While in a position the running PnL and its percentage are computed from the
entry prices/shares, the peak PnL% is updated, and any true exit trigger
closes the position, realizes the PnL into equity and records a Trade. -/
def cfgExitPhase (cfg : BacktestConfig) (hedge : ℚ) (s : CfgState)
    (bar : CfgBar) : CfgState :=
  if s.position ≠ 0 then
    let t := cfgClosedTrade hedge s bar
    let pnlPct := cfgPnlPct cfg hedge t.pnl
    let peak := max s.peakPnlPct pnlPct
    if cfgShouldExit cfg s bar pnlPct peak then
      { s with
        equity := s.equity + t.pnl
        totalTrades := s.totalTrades + 1
        wins := if 0 < t.pnl then s.wins + 1 else s.wins
        history := s.history ++ [t]
        position := 0, entrySharesA := 0, entrySharesB := 0
        peakPnlPct := 0 }
    else { s with peakPnlPct := peak }
  else s

/-- Modelled from the spec: entry half of a config-driven backtest iteration —
`FLAT → SHORT_SPREAD` on `Z > entryThresholdUpper`, `FLAT → LONG_SPREAD` on
`Z < entryThresholdLower`, with per-leg share counts from `capitalPerLeg` and
the hedge ratio, fixed at entry. -/
def cfgEntryPhase (cfg : BacktestConfig) (hedge : ℚ) (s : CfgState)
    (bar : CfgBar) : CfgState :=
  if s.position = 0 then
    if zGt bar.z cfg.entryThresholdUpper then
      { s with
        position := -1, entryPriceA := bar.pA, entryPriceB := bar.pB
        entrySharesA := cfg.capitalPerLeg / bar.pA
        entrySharesB := cfg.capitalPerLeg * |hedge| / bar.pB
        entryDate := bar.date, entryZ := bar.z, entryIndex := bar.i
        peakPnlPct := 0 }
    else if zLt bar.z cfg.entryThresholdLower then
      { s with
        position := 1, entryPriceA := bar.pA, entryPriceB := bar.pB
        entrySharesA := cfg.capitalPerLeg / bar.pA
        entrySharesB := cfg.capitalPerLeg * |hedge| / bar.pB
        entryDate := bar.date, entryZ := bar.z, entryIndex := bar.i
        peakPnlPct := 0 }
    else s
  else s

/-- Modelled from the spec: realized-equity push and peak/drawdown update of a
config-driven backtest iteration (identical to the source loop's tail). -/
def cfgPushPhase (s : CfgState) : CfgState :=
  let peak := if s.peakEquity < s.equity then s.equity else s.peakEquity
  let dd := (peak - s.equity) / peak
  { s with
    equityCurve := s.equityCurve ++ [s.equity]
    peakEquity := peak
    maxDrawdown := if s.maxDrawdown < dd then dd else s.maxDrawdown }

/-- Modelled from the spec: one full iteration of the config-driven backtest
state machine (exit checks, then entry checks, then equity-curve push). -/
def cfgStep (cfg : BacktestConfig) (hedge : ℚ) (s : CfgState)
    (bar : CfgBar) : CfgState :=
  cfgPushPhase (cfgEntryPhase cfg hedge (cfgExitPhase cfg hedge s bar) bar)

/-- Bars visited by the config-driven backtest: indices
`1 .. zScores.length-1` with their data. -/
def cfgBars (zScores : List (Option ℚ)) (pricesA pricesB : List ℚ)
    (dates : List String) : List CfgBar :=
  ((List.range zScores.length).drop 1).map fun i =>
    { i := i, z := zScores.getD i none, pA := pricesA.getD i 0
      pB := pricesB.getD i 0, date := dates.getD i "" }

/-- Modelled from the spec: `calculateBacktest` extended with the
`BacktestConfig` thresholds and risk exits (the configurable engine described
in spec section 4.5 whose implementation is not among the sources). -/
def calculateBacktestCfg (cfg : BacktestConfig) (sqrtFn : ℚ → ℚ)
    (zScores : List (Option ℚ)) (pricesA pricesB : List ℚ) (hedge : ℚ)
    (dates : List String) : BacktestResult :=
  let s := (cfgBars zScores pricesA pricesB dates).foldl (cfgStep cfg hedge) cfgInit
  let returns := curveReturns s.equityCurve
  let meanRet := if returns.length > 0 then mean returns else 0
  let stdRet := if returns.length > 0 then std sqrtFn returns else 0
  { equityCurve := s.equityCurve
    trades := s.totalTrades
    winRate := if 0 < s.totalTrades then (s.wins : ℚ) / s.totalTrades else 0
    totalReturn := (s.equity - 10000) / 10000
    maxDrawdown := s.maxDrawdown
    sharpe := if 0 < stdRet then meanRet / stdRet * sqrtFn 252 else 0
    history := s.history }

/-- Modelled from the spec: the z-score window ending at index `i` —
expanding until the rolling window fills, exact rolling window thereafter,
full history when `rollingWindow` is `null`. -/
def windowAt (spread : List ℚ) (w : Option ℕ) (i : ℕ) : List ℚ :=
  match w with
  | none => spread
  | some ws => (spread.take (i + 1)).drop (i + 1 - ws)

/-- Modelled from the spec: windowed z-scores with the divide-by-zero guard —
"zero std within a window yields Z-score 0 for that index". -/
def zScoresCfg (sqrtFn : ℚ → ℚ) (spread : List ℚ) (w : Option ℕ) :
    List (Option ℚ) :=
  (List.range spread.length).map fun i =>
    let win := windowAt spread w i
    let sd := std sqrtFn win
    if sd = 0 then some 0 else some ((spread.getD i 0 - mean win) / sd)

/-- Modelled from the spec: `analyzePairs(pricesA, pricesB, dates, config?)` —
the exported pairs analysis with the optional `BacktestConfig` argument
(defaulting to `DEFAULT_BACKTEST_CONFIG`), feeding the configured thresholds
to the backtest and the rolling-window policy to the z-scores. -/
def analyzePairsCfg (lnFn sqrtFn : ℚ → ℚ) (pricesA pricesB : List ℚ)
    (dates : List String)
    (cfg : BacktestConfig := DEFAULT_BACKTEST_CONFIG) : PairsAnalysisResult :=
  let logA := pricesA.map lnFn
  let logB := pricesB.map lnFn
  let ba := calculateOLS logB logA
  let spread := pairsSpread logA logB
  let meanSpread := mean spread
  let stdSpread := std sqrtFn spread
  let zScore := zScoresCfg sqrtFn spread cfg.rollingWindow
  let halfLife := calculateHalfLife lnFn spread
  { hedge := ba.1
    alpha := ba.2
    spread := spread
    zScore := zScore
    currentZScore := (zScore.getLast?).getD none
    halfLife := halfLife
    isCointegrated := decide (halfLife < 60) && decide (0 < halfLife)
    stats :=
      { meanSpread := meanSpread, stdSpread := stdSpread
        lastPriceA := pricesA.getLast?, lastPriceB := pricesB.getLast? }
    backtest := calculateBacktestCfg cfg sqrtFn zScore pricesA pricesB ba.1 dates }

end ConfigBacktest

section ImpliedVolatility

/-- `ImpliedVolatilityResult` from `blackScholes.ts`. -/
structure IVResult where
  iv : ℚ
  converged : Bool
  iterations : ℕ
deriving DecidableEq, Repr

/-- The loop of `bisectionIV`: bracket `[sigmaLow, sigmaHigh]`, up to 100
iterations at precision `1e-6`; returns `converged = true` when either the
price difference or the bracket width falls below the precision.  `price` is
the Black-Scholes price at a trial volatility (the source evaluates it with
`calculateBlackScholes` at the query's fixed `S, K, T, r`, type). -/
def bisectLoop (price : ℚ → ℚ) (optionPrice sigmaLow sigmaHigh : ℚ) :
    ℕ → ℕ → IVResult
  | 0, _ => { iv := (sigmaLow + sigmaHigh) / 2, converged := false, iterations := 100 }
  | fuel + 1, i =>
    let sigmaMid := (sigmaLow + sigmaHigh) / 2
    let diff := price sigmaMid - optionPrice
    if |diff| < 1 / 1000000 ∨ sigmaHigh - sigmaLow < 1 / 1000000 then
      { iv := sigmaMid, converged := true, iterations := i + 1 }
    else if 0 < diff then
      bisectLoop price optionPrice sigmaLow sigmaMid fuel (i + 1)
    else
      bisectLoop price optionPrice sigmaMid sigmaHigh fuel (i + 1)

/-- `bisectionIV`: bisection fallback over `sigma ∈ [0.001, 5.0]`. -/
def bisectionIV (price : ℚ → ℚ) (optionPrice : ℚ) : IVResult :=
  bisectLoop price optionPrice (1 / 1000) 5 100 0

/-- The Newton-Raphson loop of `calculateImpliedVolatility`: up to 100
iterations at precision `1e-7`; hands over to `bisectionIV` when the vega
magnitude drops below `1e-10` or the iteration budget is exhausted.  `vega`
is the unscaled Black-Scholes vega `S·√T·pdf(d1)` at a trial volatility. -/
def nrLoop (price vega : ℚ → ℚ) (optionPrice : ℚ) : ℚ → ℕ → ℕ → IVResult
  | _, 0, _ => bisectionIV price optionPrice
  | sigma, fuel + 1, i =>
    let diff := price sigma - optionPrice
    if |diff| < 1 / 10000000 then
      { iv := sigma, converged := true, iterations := i + 1 }
    else
      let v := vega sigma
      if |v| < 1 / 10000000000 then bisectionIV price optionPrice
      else
        nrLoop price vega optionPrice
          (max (1 / 1000) (min (sigma - diff / v) 10)) fuel (i + 1)

/-- The intrinsic-value check expression of `calculateImpliedVolatility`:
`max(0, S - K·e^{-rT})` for a call, `max(0, K·e^{-rT} - S)` for a put. -/
def intrinsicValue (expFn : ℚ → ℚ) (S K T r : ℚ) : Bool → ℚ
  | true => max 0 (S - K * expFn (-r * T))
  | false => max 0 (K * expFn (-r * T) - S)

/-- `calculateImpliedVolatility(inputs)`: input checks (`T ≤ 0`,
`optionPrice ≤ 0`, price below `0.99 ×` intrinsic value reject with
`converged = false`), Brenner-Subrahmanyam initial guess
`√(2π/T)·price/S` clamped to `[0.01, 5]`, then Newton-Raphson with bisection
fallback.  `expFn`, `sqrtFn`, `piQ` are the `Math.exp`, `Math.sqrt`,
`Math.PI` oracles; `isCall` selects the option type. -/
def calculateImpliedVolatility (price vega expFn sqrtFn : ℚ → ℚ) (piQ : ℚ)
    (optionPrice S K T r : ℚ) (isCall : Bool) : IVResult :=
  if T ≤ 0 ∨ optionPrice ≤ 0 then { iv := 0, converged := false, iterations := 0 }
  else if optionPrice < intrinsicValue expFn S K T r isCall * (99 / 100) then
    { iv := 0, converged := false, iterations := 0 }
  else
    let sigma0 := sqrtFn (2 * piQ / T) * optionPrice / S
    nrLoop price vega optionPrice (max (1 / 100) (min sigma0 5)) 100 0

end ImpliedVolatility

section BlackScholes

/-- `OptionType` from `blackScholes.ts`. -/
inductive OptionType where
  | call : OptionType
  | put : OptionType
deriving DecidableEq, Repr

/-- `BlackScholesInputs`: spot, strike, time to maturity (years), risk-free
rate, volatility. -/
structure BlackScholesInputs where
  S : ℝ
  K : ℝ
  T : ℝ
  r : ℝ
  sigma : ℝ

/-- `OptionGreeks` from `blackScholes.ts`. -/
structure OptionGreeks where
  delta : ℝ
  gamma : ℝ
  theta : ℝ
  vega : ℝ
  rho : ℝ

/-- `BlackScholesOutput` from `blackScholes.ts`. -/
structure BlackScholesOutput where
  price : ℝ
  greeks : OptionGreeks

/-- The source's `cdf`: `(1 + erf(x/√2))/2`, with the `mathjs` `erf`
approximation abstracted as the oracle `erfFn`. -/
noncomputable def bsCdf (erfFn : ℝ → ℝ) (x : ℝ) : ℝ :=
  (1 + erfFn (x / Real.sqrt 2)) / 2

/-- The source's `pdf`: the standard normal density. -/
noncomputable def bsPdf (x : ℝ) : ℝ :=
  (1 / Real.sqrt (2 * Real.pi)) * Real.exp (-0.5 * x * x)

/-- `calculateBlackScholes(inputs, type)`: boundary branches for `T ≤ 0` and
`sigma ≤ 0` return intrinsic value with degenerate Greeks; otherwise the
closed-form price and Greeks from `d1`, `d2` (vega per 1% vol move, rho per
1% rate move, theta converted from annual to daily). -/
noncomputable def calculateBlackScholes (erfFn : ℝ → ℝ)
    (inp : BlackScholesInputs) (type : OptionType) : BlackScholesOutput :=
  if inp.T ≤ 0 then
    { price := max 0 (if type = OptionType.call then inp.S - inp.K else inp.K - inp.S)
      greeks := { delta := 0, gamma := 0, theta := 0, vega := 0, rho := 0 } }
  else if inp.sigma ≤ 0 then
    { price := max 0 (if type = OptionType.call then inp.S - inp.K else inp.K - inp.S)
      greeks :=
        { delta :=
            if type = OptionType.call then (if inp.K < inp.S then 1 else 0)
            else (if inp.S < inp.K then -1 else 0)
          gamma := 0, theta := 0, vega := 0, rho := 0 } }
  else
    let d1 := (Real.log (inp.S / inp.K) + (inp.r + 0.5 * inp.sigma * inp.sigma) * inp.T) /
      (inp.sigma * Real.sqrt inp.T)
    let d2 := d1 - inp.sigma * Real.sqrt inp.T
    let gamma := bsPdf d1 / (inp.S * inp.sigma * Real.sqrt inp.T)
    let vega := inp.S * Real.sqrt inp.T * bsPdf d1 / 100
    match type with
    | OptionType.call =>
      let cdfD1 := bsCdf erfFn d1
      let cdfD2 := bsCdf erfFn d2
      let theta := -(inp.S * bsPdf d1 * inp.sigma) / (2 * Real.sqrt inp.T) -
        inp.r * inp.K * Real.exp (-inp.r * inp.T) * cdfD2
      { price := inp.S * cdfD1 - inp.K * Real.exp (-inp.r * inp.T) * cdfD2
        greeks :=
          { delta := cdfD1, gamma := gamma, theta := theta / 365, vega := vega
            rho := inp.K * inp.T * Real.exp (-inp.r * inp.T) * cdfD2 / 100 } }
    | OptionType.put =>
      let cdfNegD1 := bsCdf erfFn (-d1)
      let cdfNegD2 := bsCdf erfFn (-d2)
      let theta := -(inp.S * bsPdf d1 * inp.sigma) / (2 * Real.sqrt inp.T) +
        inp.r * inp.K * Real.exp (-inp.r * inp.T) * cdfNegD2
      { price := inp.K * Real.exp (-inp.r * inp.T) * cdfNegD2 - inp.S * cdfNegD1
        greeks :=
          { delta := cdfNegD1 - 1, gamma := gamma, theta := theta / 365, vega := vega
            rho := -inp.K * inp.T * Real.exp (-inp.r * inp.T) * cdfNegD2 / 100 } }

end BlackScholes

section MonteCarlo

/-- `SimulationInputs` from `monteCarlo.ts`. -/
structure SimulationInputs where
  initialPrice : ℚ
  expectedReturn : ℚ
  volatility : ℚ
  timeHorizon : ℚ
  timeSteps : ℕ
  numSimulations : ℕ
deriving DecidableEq, Repr

/-- The statistics block of `SimulationResult`.  Fields that the source can
leave `NaN`/`undefined` (indexing an empty array, dividing by zero) are
`Option`-valued. -/
structure SimStats where
  mean : Option ℚ
  median : Option ℚ
  min : Option ℚ
  max : Option ℚ
  var95 : Option ℚ
  var99 : Option ℚ
deriving DecidableEq, Repr

/-- `SimulationResult` from `monteCarlo.ts`.  `finalPrices` is returned after
the in-place ascending sort, exactly as in the source. -/
structure SimulationResult where
  paths : List (List (ℕ × ℚ))
  finalPrices : List ℚ
  stats : SimStats
deriving DecidableEq, Repr

/-- One Geometric-Brownian-Motion path of `runMonteCarloSimulation` together
with its terminal price: `S_t = S_{t-1}·exp(drift + volSqDt·Z_t)`.  The
Box-Muller normal draws (`randn_bm`, built on `Math.random`) are abstracted
as the shock oracle `shock : ℕ → ℚ`, and `Math.exp` as `expFn`. -/
def mcPath (expFn : ℚ → ℚ) (shock : ℕ → ℚ) (initialPrice drift volSqDt : ℚ)
    (timeSteps : ℕ) : List (ℕ × ℚ) × ℚ :=
  (List.range' 1 timeSteps).foldl
    (fun acc t =>
      let p := acc.2 * expFn (drift + volSqDt * shock t)
      (acc.1 ++ [(t, p)], p))
    ([(0, initialPrice)], initialPrice)

/-- `runMonteCarloSimulation(inputs)`: GBM paths, sorted terminal prices, and
the terminal-distribution statistics (mean, median, min, max, VaR95/99
floored at 0).  `shocks i t` is the normal draw of path `i` at step `t`. -/
def runMonteCarloSimulation (expFn sqrtFn : ℚ → ℚ) (shocks : ℕ → ℕ → ℚ)
    (inp : SimulationInputs) : SimulationResult :=
  let dt := inp.timeHorizon / inp.timeSteps
  let drift := (inp.expectedReturn - 0.5 * inp.volatility * inp.volatility) * dt
  let volSqDt := inp.volatility * sqrtFn dt
  let runs := (List.range inp.numSimulations).map fun i =>
    mcPath expFn (shocks i) inp.initialPrice drift volSqDt inp.timeSteps
  let finalPrices := (runs.map (·.2)).mergeSort (fun a b => a ≤ b)
  let n := inp.numSimulations
  let idx95 := (⌊(n : ℚ) * (5 / 100)⌋).toNat
  let idx99 := (⌊(n : ℚ) * (1 / 100)⌋).toNat
  { paths := runs.map (·.1)
    finalPrices := finalPrices
    stats :=
      { mean := jsDiv finalPrices.sum n
        median := finalPrices.get? (n / 2)
        min := finalPrices.get? 0
        max := finalPrices.get? (n - 1)
        var95 := (finalPrices.get? idx95).map fun p => max 0 (inp.initialPrice - p)
        var99 := (finalPrices.get? idx99).map fun p => max 0 (inp.initialPrice - p) } }

end MonteCarlo

section SVI

/-- `SVIParams` from `svi.ts`: level, slope, rotation, translation,
curvature. -/
structure SVIParams where
  a : ℚ
  b : ℚ
  rho : ℚ
  m : ℚ
  sigma : ℚ
deriving DecidableEq, Repr

/-- One observed (log-moneyness, implied-vol) input point for the SVI fit. -/
structure SVIPoint where
  moneyness : ℚ
  iv : ℚ
deriving DecidableEq, Repr

/-- One (log-moneyness, total-variance) point of the fitting data set. -/
structure SVIDataPoint where
  k : ℚ
  w : ℚ
deriving DecidableEq, Repr

/-- One fitted point in `SVIFitResult.fittedPoints`. -/
structure SVIFitted where
  moneyness : ℚ
  iv : ℚ
  fittedIV : ℚ
deriving DecidableEq, Repr

/-- `SVIFitResult` from `svi.ts` (`r2` is nullable in the model because the
degenerate zero-TSS fit stores `NaN`, see `sviR2`). -/
structure SVIFitResult where
  params : SVIParams
  rmse : ℚ
  r2 : Option ℚ
  fittedPoints : List SVIFitted
deriving DecidableEq, Repr

/-- `sviImpliedVariance(k, params)`:
`a + b·(ρ·(k−m) + √((k−m)² + σ²))` through the `Math.sqrt` oracle. -/
def sviImpliedVariance (sqrtFn : ℚ → ℚ) (k : ℚ) (p : SVIParams) : ℚ :=
  p.a + p.b * (p.rho * (k - p.m) + sqrtFn ((k - p.m) * (k - p.m) + p.sigma * p.sigma))

/-- `sviImpliedVolatility(k, T, params)`: `√(w/T)`, `0` when the variance is
non-positive. -/
def sviImpliedVolatility (sqrtFn : ℚ → ℚ) (k T : ℚ) (p : SVIParams) : ℚ :=
  let variance := sviImpliedVariance sqrtFn k p
  if variance ≤ 0 then 0 else sqrtFn (variance / T)

/-- `calculateSSE(data, params)`: sum of squared fitting errors. -/
def calculateSSE (sqrtFn : ℚ → ℚ) (data : List SVIDataPoint) (p : SVIParams) : ℚ :=
  (data.map (fun d => (d.w - sviImpliedVariance sqrtFn d.k p) ^ 2)).sum

/-- `calculateGradient(data, params)`: forward finite differences with
`h = 1e-4`, one coordinate at a time from the same base parameters. -/
def calculateGradient (sqrtFn : ℚ → ℚ) (data : List SVIDataPoint)
    (p : SVIParams) : SVIParams :=
  let h : ℚ := 1 / 10000
  let base := calculateSSE sqrtFn data p
  { a := (calculateSSE sqrtFn data { p with a := p.a + h } - base) / h
    b := (calculateSSE sqrtFn data { p with b := p.b + h } - base) / h
    rho := (calculateSSE sqrtFn data { p with rho := p.rho + h } - base) / h
    m := (calculateSSE sqrtFn data { p with m := p.m + h } - base) / h
    sigma := (calculateSSE sqrtFn data { p with sigma := p.sigma + h } - base) / h }

/-- One gradient-descent update of `fitSVISlice` (learning rate `0.001`,
box constraints `a ≥ 0.001`, `b ∈ [0.01, 1]`, `ρ ∈ [-0.99, 0.99]`,
`σ ≥ 0.01`; the `ρ` and `m` steps carry the source's extra `0.1` factor). -/
def sviGDStep (sqrtFn : ℚ → ℚ) (data : List SVIDataPoint) (p : SVIParams) :
    SVIParams :=
  let g := calculateGradient sqrtFn data p
  let lr : ℚ := 1 / 1000
  { a := max (1 / 1000) (p.a - lr * g.a)
    b := max (1 / 100) (min 1 (p.b - lr * g.b))
    rho := max (-(99 / 100)) (min (99 / 100) (p.rho - lr * g.rho * (1 / 10)))
    m := p.m - lr * g.m * (1 / 10)
    sigma := max (1 / 100) (p.sigma - lr * g.sigma) }

/-- The 500-iteration gradient-descent refinement loop of `fitSVISlice`. -/
def sviGD (sqrtFn : ℚ → ℚ) (data : List SVIDataPoint) : SVIParams → ℕ → SVIParams
  | p, 0 => p
  | p, n + 1 => sviGD sqrtFn data (sviGDStep sqrtFn data p) n

/-- The coarse 4×4×4×4 grid search of `fitSVISlice` over candidate
`{a, b, ρ, σ}` (with `m = 0`), minimizing SSE; the initial best is the
heuristic guess and the initial best error is `Infinity` (`none`). -/
def sviGridSearch (sqrtFn : ℚ → ℚ) (data : List SVIDataPoint) (avgW : ℚ) :
    SVIParams :=
  let init : SVIParams := { a := avgW * (8/10), b := 2/10, rho := -(3/10), m := 0, sigma := 1/10 }
  let aValues := [avgW * (5/10), avgW * (7/10), avgW * (9/10), avgW * (11/10)]
  let bValues : List ℚ := [1/10, 2/10, 3/10, 5/10]
  let rhoValues : List ℚ := [-(5/10), -(3/10), -(1/10), 1/10]
  let sigmaValues : List ℚ := [5/100, 1/10, 2/10, 3/10]
  (aValues.foldl (fun acc a =>
    bValues.foldl (fun acc b =>
      rhoValues.foldl (fun acc rho =>
        sigmaValues.foldl (fun acc sigma =>
          let params : SVIParams := { a := a, b := b, rho := rho, m := 0, sigma := sigma }
          let error := calculateSSE sqrtFn data params
          match acc.2 with
          | none => (params, some error)
          | some best => if error < best then (params, some error) else acc)
          acc) acc) acc)
    ((init, none) : SVIParams × Option ℚ)).1

/-- The (log-moneyness, total variance `iv²·T`) data set of `fitSVISlice`. -/
def sviData (points : List SVIPoint) (T : ℚ) : List SVIDataPoint :=
  points.map fun p => { k := p.moneyness, w := p.iv * p.iv * T }

/-- The total sum of squares `Σ (w - meanW)²` used for the R² of
`fitSVISlice`. -/
def sviTSS (data : List SVIDataPoint) : ℚ :=
  let meanW := (data.map (·.w)).sum / data.length
  (data.map (fun d => (d.w - meanW) ^ 2)).sum

/-- The clamped goodness of fit `max(0, min(1, 1 - SSE/TSS))` of
`fitSVISlice`, with JS division semantics at `TSS = 0` (both sums of squares
are non-negative, so the denominator is `+0`): for `SSE > 0`, `SSE/0 = +∞`
and `1 - ∞ = -∞` clamps to `0`; for `SSE = 0`, `0/0 = NaN` propagates through
`Math.min`/`Math.max` (`none`); either way the slice fails the `r2 > 0.3`
acceptance gate. -/
def sviR2 (sqrtFn : ℚ → ℚ) (data : List SVIDataPoint) (p : SVIParams) :
    Option ℚ :=
  let sse := calculateSSE sqrtFn data p
  let tss := sviTSS data
  if tss = 0 then (if sse = 0 then none else some 0)
  else some (max 0 (min 1 (1 - sse / tss)))

/-- Body of `fitSVISlice` after the minimum-size guard: data conversion,
grid search, gradient descent, and fit statistics.  (The source also computes
`minK`/`maxK`, which are never used.) -/
def fitSVIBody (sqrtFn : ℚ → ℚ) (points : List SVIPoint) (T : ℚ) : SVIFitResult :=
  let data := sviData points T
  let avgW := (data.map (·.w)).sum / data.length
  let current := sviGD sqrtFn data (sviGridSearch sqrtFn data avgW) 500
  let sse := calculateSSE sqrtFn data current
  { params := current
    rmse := sqrtFn (sse / data.length)
    r2 := sviR2 sqrtFn data current
    fittedPoints := points.map fun p =>
      { moneyness := p.moneyness, iv := p.iv
        fittedIV := sviImpliedVolatility sqrtFn p.moneyness T current } }

/-- `fitSVISlice(points, T)`: `null` when fewer than 5 data points are
supplied, otherwise the grid-search + gradient-descent fit. -/
def fitSVISlice (sqrtFn : ℚ → ℚ) (points : List SVIPoint) (T : ℚ) :
    Option SVIFitResult :=
  if points.length < 5 then none else some (fitSVIBody sqrtFn points T)

end SVI

section Surface

/-- `SurfacePoint` from `blackScholes.ts` (nullable IVs and Greeks are
`Option`-valued). -/
structure SurfacePoint where
  strike : ℚ
  expiry : String
  daysToExpiry : ℚ
  moneyness : ℚ
  callIV : Option ℚ
  putIV : Option ℚ
  callPrice : ℚ
  putPrice : ℚ
  callBid : ℚ
  callAsk : ℚ
  putBid : ℚ
  putAsk : ℚ
  callVolume : ℚ
  putVolume : ℚ
  callOI : ℚ
  putOI : ℚ
  callDelta : Option ℚ
  putDelta : Option ℚ
  gamma : Option ℚ
  vega : Option ℚ
deriving DecidableEq, Repr

/-- A `{min, max}` range argument of `generateSVISurface`. -/
structure QRange where
  min : ℚ
  max : ℚ
deriving DecidableEq, Repr

/-- The result grid of `generateSVISurface`; `NaN` grid cells are `none`. -/
structure SVISurfaceResult where
  strikes : List ℚ
  expiries : List ℚ
  ivGrid : List (List (Option ℚ))
  sviFits : List (ℚ × SVIFitResult)
deriving DecidableEq, Repr

/-- JS truthiness of a nullable number (`null`/`undefined` and `0` are
falsy): the value when truthy, `none` otherwise. -/
def truthyQ (o : Option ℚ) : Option ℚ :=
  match o with
  | none => none
  | some v => if v = 0 then none else some v

/-- The `byExpiry` grouping of `generateSVISurface`: a `Map` from
`daysToExpiry` to the points of that expiry, in insertion order. -/
def groupByExpiry (pts : List SurfacePoint) : List (ℚ × List SurfacePoint) :=
  pts.foldl
    (fun m p => mapSet m p.daysToExpiry ((mapGet m p.daysToExpiry).getD [] ++ [p]))
    []

/-- The per-slice fit data of `generateSVISurface`: points with at least one
IV present, mapped to `(moneyness, callIV ?? putIV)`. -/
def sviFitData (pts : List SurfacePoint) : List SVIPoint :=
  (pts.filter fun p => p.callIV.isSome || p.putIV.isSome).map fun p =>
    { moneyness := p.moneyness, iv := (jsCoalesce p.callIV p.putIV).getD 0 }

/-- The per-expiry raw strike → IV map of `generateSVISurface` (fallback
interpolation data). -/
def rawStrikeIVMap (pts : List SurfacePoint) : List (ℚ × ℚ) :=
  pts.foldl
    (fun m p =>
      match jsCoalesce p.callIV p.putIV with
      | some iv => mapSet m p.strike iv
      | none => m)
    []

/-- The `sviFits` map of `generateSVISurface`: a slice enters the surface
when its fit data has at least 4 points, `fitSVISlice` succeeds, and the fit
passes the goodness-of-fit gate `fit.r2 > 0.3` (a JS comparison: `false` on
the `NaN` stored by the degenerate zero-TSS fit). -/
def buildSviFits (sqrtFn : ℚ → ℚ) (groups : List (ℚ × List SurfacePoint)) :
    List (ℚ × SVIFitResult) :=
  groups.foldl
    (fun m g =>
      let fitData := sviFitData g.2
      if 4 ≤ fitData.length then
        match fitSVISlice sqrtFn fitData (g.1 / 365) with
        | some fit => if zGt fit.r2 (3 / 10) then mapSet m g.1 fit else m
        | none => m
      else m)
    []

/-- The `rawIVByExpiry` map of `generateSVISurface`. -/
def buildRawIV (groups : List (ℚ × List SurfacePoint)) :
    List (ℚ × List (ℚ × ℚ)) :=
  groups.foldl (fun m g => mapSet m g.1 (rawStrikeIVMap g.2)) []

/-- `interpolateRawIV(strike, days, rawIVByExpiry, expiryDays)`: bilinear
fallback interpolation over the raw IV observations. -/
def interpolateRawIV (strike days : ℚ) (rawIV : List (ℚ × List (ℚ × ℚ)))
    (expiryDays : List ℚ) : ℚ :=
  let lowerExpiry := (expiryDays.filter (· ≤ days)).getLast?
  let upperExpiry := expiryDays.find? (days ≤ ·)
  let interpolateAtExpiry : ℚ → Option ℚ := fun expDays =>
    match mapGet rawIV expDays with
    | none => none
    | some strikeMap =>
      let sortedStrikes := (strikeMap.map (·.1)).mergeSort (fun a b => a ≤ b)
      let lowerStrike := (sortedStrikes.filter (· ≤ strike)).getLast?
      let upperStrike := sortedStrikes.find? (strike ≤ ·)
      match lowerStrike, upperStrike with
      | none, none => none
      | none, some us => some ((mapGet strikeMap us).getD 0)
      | some ls, none => some ((mapGet strikeMap ls).getD 0)
      | some ls, some us =>
        if ls = us then some ((mapGet strikeMap ls).getD 0)
        else
          let lowerIV := (mapGet strikeMap ls).getD 0
          let upperIV := (mapGet strikeMap us).getD 0
          let weight := (strike - ls) / (us - ls)
          some (lowerIV * (1 - weight) + upperIV * weight)
  if lowerExpiry = none ∧ upperExpiry = none then 0
  else
    let lowerIV := (truthyQ lowerExpiry).bind interpolateAtExpiry
    let upperIV := (truthyQ upperExpiry).bind interpolateAtExpiry
    match lowerIV, upperIV with
    | none, none => 0
    | none, some u => u
    | some l, none => l
    | some l, some u =>
      if lowerExpiry = upperExpiry then l
      else
        let le := lowerExpiry.getD 0
        let ue := upperExpiry.getD 0
        let weight := (days - le) / (ue - le)
        l * (1 - weight) + u * weight

/-- `generateSVISurface(surfacePoints, spotPrice, strikeRange, expiryRange,
resolution)`: per-expiry SVI fits behind the acceptance gate, then a uniform
strike × expiry grid interpolated from the accepted slices with the raw-IV
bilinear fallback (`lnFn` is the `Math.log` oracle for log-moneyness; cells
that stay non-positive are `NaN`, i.e. `none`). -/
def generateSVISurface (lnFn sqrtFn : ℚ → ℚ) (surfacePoints : List SurfacePoint)
    (spotPrice : ℚ) (strikeRange expiryRange : QRange)
    (resolution : ℕ := 30) : SVISurfaceResult :=
  let byExpiry := groupByExpiry surfacePoints
  let sviFits := buildSviFits sqrtFn byExpiry
  let rawIVByExpiry := buildRawIV byExpiry
  let strikes := (List.range (resolution + 1)).map fun i =>
    strikeRange.min + (strikeRange.max - strikeRange.min) * ((i : ℚ) / resolution)
  let expiryDays := (byExpiry.map (·.1)).mergeSort (fun a b => a ≤ b)
  let expiries := (List.range (resolution + 1)).map fun i =>
    expiryRange.min + (expiryRange.max - expiryRange.min) * ((i : ℚ) / resolution)
  let ivGrid := expiries.map fun days =>
    let lowerExpiry := (expiryDays.filter (· ≤ days)).getLast?
    let upperExpiry := expiryDays.find? (days ≤ ·)
    strikes.map fun K =>
      let k := lnFn (K / spotPrice)
      let fromUpper : ℚ :=
        match truthyQ upperExpiry with
        | some ue =>
          match mapGet sviFits ue with
          | some fitU => sviImpliedVolatility sqrtFn k (ue / 365) fitU.params
          | none => 0
        | none => 0
      let iv : ℚ :=
        match truthyQ lowerExpiry with
        | some le =>
          match mapGet sviFits le with
          | some fitL =>
            let lowerIV := sviImpliedVolatility sqrtFn k (le / 365) fitL.params
            (match truthyQ upperExpiry with
             | some ue =>
               if ue ≠ le then
                 match mapGet sviFits ue with
                 | some fitU =>
                   let upperIV := sviImpliedVolatility sqrtFn k (ue / 365) fitU.params
                   let weight := (days - le) / (ue - le)
                   lowerIV * (1 - weight) + upperIV * weight
                 | none => lowerIV
               else lowerIV
             | none => lowerIV)
          | none => fromUpper
        | none => fromUpper
      let iv2 := if iv ≤ 0 then interpolateRawIV K days rawIVByExpiry expiryDays else iv
      if 0 < iv2 then some (iv2 * 100) else none
  { strikes := strikes, expiries := expiries, ivGrid := ivGrid, sviFits := sviFits }

end Surface

section Arbitrage

/-- `ArbitrageType` from `arbitrage.ts` (`vertical` is declared but never
produced by the scanner). -/
inductive ArbType where
  | butterfly : ArbType
  | calendar : ArbType
  | put_call : ArbType
  | vertical : ArbType
deriving DecidableEq, Repr

/-- Opportunity severity. -/
inductive Severity where
  | low : Severity
  | medium : Severity
  | high : Severity
deriving DecidableEq, Repr

/-- A trade-leg action. -/
inductive LegAction where
  | buy : LegAction
  | sell : LegAction
deriving DecidableEq, Repr

/-- The `details` block of an `ArbitrageOpportunity`. -/
structure ArbDetails where
  strikes : Option (List ℚ)
  expiries : Option (List String)
  ivDiff : Option ℚ
  expectedProfit : Option ℚ
deriving DecidableEq, Repr

/-- One leg of an `ArbitrageOpportunity`. -/
structure ArbLeg where
  action : LegAction
  optionType : OptionType
  strike : ℚ
  expiry : String
  price : Option ℚ
deriving DecidableEq, Repr

/-- `ArbitrageOpportunity` from `arbitrage.ts`.  The `description` string is
kept as the source template without the interpolated numeric text (number
formatting is not modelled). -/
structure ArbitrageOpportunity where
  type : ArbType
  severity : Severity
  description : String
  details : ArbDetails
  legs : List ArbLeg
deriving DecidableEq, Repr

/-- `ArbitrageResult` from `arbitrage.ts`. -/
structure ArbitrageResult where
  opportunities : List ArbitrageOpportunity
  butterflyCount : ℕ
  calendarCount : ℕ
  putCallCount : ℕ
  totalCount : ℕ
deriving DecidableEq, Repr

/-- JS truthiness of a nullable number as a condition. -/
def truthy (o : Option ℚ) : Bool :=
  match o with
  | none => false
  | some v => decide (v ≠ 0)

/-- Consecutive triples `(l[i-1], l[i], l[i+1])` of a list (the butterfly
strike windows). -/
def consecTriples {α : Type} : List α → List (α × α × α)
  | a :: b :: c :: rest => (a, b, c) :: consecTriples (b :: c :: rest)
  | _ => []

/-- Consecutive pairs `(l[i], l[i+1])` of a list (the calendar expiry
windows). -/
def consecPairs {α : Type} : List α → List (α × α)
  | a :: b :: rest => (a, b) :: consecPairs (b :: rest)
  | _ => []

/-- The `byExpiry` grouping of `scanForArbitrage` (expiry string → points,
insertion order). -/
def groupByExpiryStr (pts : List SurfacePoint) : List (String × List SurfacePoint) :=
  pts.foldl
    (fun m p => mapSet m p.expiry ((mapGet m p.expiry).getD [] ++ [p]))
    []

/-- The butterfly opportunities pushed for one consecutive strike triple of
one expiry: flagged when all three call IVs are truthy and the convexity
violation `mid - (left+right)/2` exceeds `0.02`. -/
def butterflyOppsOfTriple (expiry : String)
    (tr : SurfacePoint × SurfacePoint × SurfacePoint) : List ArbitrageOpportunity :=
  match tr.1.callIV, tr.2.1.callIV, tr.2.2.callIV with
  | some lIV, some mIV, some rIV =>
    if lIV ≠ 0 ∧ mIV ≠ 0 ∧ rIV ≠ 0 then
      let convexityViolation := mIV - (lIV + rIV) / 2
      if 1 / 50 < convexityViolation then
        [{ type := ArbType.butterfly
           severity :=
             if 1 / 20 < convexityViolation then Severity.high
             else if 3 / 100 < convexityViolation then Severity.medium
             else Severity.low
           description := "Butterfly arbitrage: Middle strike IV too high"
           details :=
             { strikes := some [tr.1.strike, tr.2.1.strike, tr.2.2.strike]
               expiries := some [expiry], ivDiff := some convexityViolation
               expectedProfit := none }
           legs :=
             [{ action := LegAction.buy, optionType := OptionType.call
                strike := tr.1.strike, expiry := expiry, price := none },
              { action := LegAction.sell, optionType := OptionType.call
                strike := tr.2.1.strike, expiry := expiry, price := none },
              { action := LegAction.sell, optionType := OptionType.call
                strike := tr.2.1.strike, expiry := expiry, price := none },
              { action := LegAction.buy, optionType := OptionType.call
                strike := tr.2.2.strike, expiry := expiry, price := none }] }]
      else []
    else []
  | _, _, _ => []

/-- Butterfly scan for one expiry group: sort by strike, visit every
consecutive triple. -/
def butterflyOppsOfGroup (g : String × List SurfacePoint) :
    List ArbitrageOpportunity :=
  (consecTriples (g.2.mergeSort (fun a b => a.strike ≤ b.strike))).foldl
    (fun acc tr => acc ++ butterflyOppsOfTriple g.1 tr) []

/-- Butterfly scan: per expiry, sort points by strike; flag every consecutive
triple with all three call IVs truthy whose convexity violation exceeds
`0.02`. -/
def butterflyOpps (groups : List (String × List SurfacePoint)) :
    List ArbitrageOpportunity :=
  groups.foldl (fun acc g => acc ++ butterflyOppsOfGroup g) []

/-- The calendar opportunities pushed for one far-expiry point against the
matching near-expiry point: a term-structure inversion when the far IV is
below `0.85 ×` the near IV (both truthy). -/
def calendarOppsOfPoint (nearExpiry farExpiry : String)
    (nearPoints : List SurfacePoint) (farPoint : SurfacePoint) :
    List ArbitrageOpportunity :=
  match nearPoints.find? (fun p => p.strike = farPoint.strike) with
  | none => []
  | some nearPoint =>
    match jsCoalesce nearPoint.callIV nearPoint.putIV,
        jsCoalesce farPoint.callIV farPoint.putIV with
    | some nearIV, some farIV =>
      if nearIV ≠ 0 ∧ farIV ≠ 0 ∧ farIV < nearIV * (17 / 20) then
        let ivDiff := nearIV - farIV
        [{ type := ArbType.calendar
           severity := if 1 / 20 < ivDiff then Severity.high else Severity.medium
           description := "Calendar spread: Near-term IV higher than far-term"
           details :=
             { strikes := some [farPoint.strike]
               expiries := some [nearExpiry, farExpiry], ivDiff := some ivDiff
               expectedProfit := none }
           legs :=
             [{ action := LegAction.sell, optionType := OptionType.call
                strike := farPoint.strike, expiry := nearExpiry, price := none },
              { action := LegAction.buy, optionType := OptionType.call
                strike := farPoint.strike, expiry := farExpiry, price := none }] }]
      else []
    | _, _ => []

/-- Calendar scan for one consecutive pair of sorted expiries: visit every
far point whose strike also occurs at the near expiry. -/
def calendarOppsOfPair (groups : List (String × List SurfacePoint))
    (pr : String × String) : List ArbitrageOpportunity :=
  let nearPoints := (mapGet groups pr.1).getD []
  let farPoints := (mapGet groups pr.2).getD []
  let commonPoints := farPoints.filter fun p =>
    nearPoints.any fun q => q.strike = p.strike
  commonPoints.foldl
    (fun acc farPoint => acc ++ calendarOppsOfPoint pr.1 pr.2 nearPoints farPoint)
    []

/-- Calendar scan: for each pair of consecutive sorted expiries and each
shared strike, flag a term-structure inversion. -/
def calendarOpps (groups : List (String × List SurfacePoint)) :
    List ArbitrageOpportunity :=
  let expiries := (groups.map (·.1)).mergeSort (fun a b => a ≤ b)
  (consecPairs expiries).foldl
    (fun acc pr => acc ++ calendarOppsOfPair groups pr) []

/-- The put-call parity opportunities pushed for one surface point: flagged
when both IVs are truthy and `|callIV - putIV| > 0.03`. -/
def putCallOppsOfPoint (point : SurfacePoint) : List ArbitrageOpportunity :=
  match point.callIV, point.putIV with
  | some c, some p0 =>
    if c ≠ 0 ∧ p0 ≠ 0 then
      let ivDiff := |c - p0|
      if 3 / 100 < ivDiff then
        let isCallCheaper := c < p0
        [{ type := ArbType.put_call
           severity :=
             if 2 / 25 < ivDiff then Severity.high
             else if 1 / 20 < ivDiff then Severity.medium
             else Severity.low
           description := "Put-Call parity: one side cheaper"
           details :=
             { strikes := some [point.strike], expiries := some [point.expiry]
               ivDiff := some ivDiff, expectedProfit := none }
           legs :=
             if isCallCheaper then
               [{ action := LegAction.buy, optionType := OptionType.call
                  strike := point.strike, expiry := point.expiry, price := none },
                { action := LegAction.sell, optionType := OptionType.put
                  strike := point.strike, expiry := point.expiry, price := none }]
             else
               [{ action := LegAction.buy, optionType := OptionType.put
                  strike := point.strike, expiry := point.expiry, price := none },
                { action := LegAction.sell, optionType := OptionType.call
                  strike := point.strike, expiry := point.expiry, price := none }] }]
      else []
    else []
  | _, _ => []

/-- Put-call parity scan over every surface point. -/
def putCallOpps (points : List SurfacePoint) : List ArbitrageOpportunity :=
  points.foldl (fun acc point => acc ++ putCallOppsOfPoint point) []

/-- The severity sort key used by `scanForArbitrage`
(`{high: 0, medium: 1, low: 2}`). -/
def severityOrder : Severity → ℕ
  | Severity.high => 0
  | Severity.medium => 1
  | Severity.low => 2

/-- `scanForArbitrage(points, spotPrice)`: butterfly, calendar and put-call
scans in source order, sorted by severity, with per-type counts.  (The
`spotPrice` argument is accepted but, as in the source body, never read.) -/
def scanForArbitrage (points : List SurfacePoint) (spotPrice : ℚ) :
    ArbitrageResult :=
  let byExpiry := groupByExpiryStr points
  let collected := butterflyOpps byExpiry ++ calendarOpps byExpiry ++ putCallOpps points
  let opportunities := collected.mergeSort
    (fun a b => severityOrder a.severity ≤ severityOrder b.severity)
  { opportunities := opportunities
    butterflyCount := (opportunities.filter fun o => decide (o.type = ArbType.butterfly)).length
    calendarCount := (opportunities.filter fun o => decide (o.type = ArbType.calendar)).length
    putCallCount := (opportunities.filter fun o => decide (o.type = ArbType.put_call)).length
    totalCount := opportunities.length }

end Arbitrage

section BacktestLemmas

/-- The exit phase never touches the equity curve. -/
theorem btExitPhase_curve (hedge : ℚ) (s : BTState) (bar : BTBar) :
    (btExitPhase hedge s bar).equityCurve = s.equityCurve := by
  unfold btExitPhase
  split <;> rfl

/-- The entry phase never touches the equity curve. -/
theorem btEntryPhase_curve (hedge : ℚ) (s : BTState) (bar : BTBar) :
    (btEntryPhase hedge s bar).equityCurve = s.equityCurve := by
  unfold btEntryPhase
  repeat first | rfl | split

/-- The entry phase never touches equity or history. -/
theorem btEntryPhase_equity_history (hedge : ℚ) (s : BTState) (bar : BTBar) :
    (btEntryPhase hedge s bar).equity = s.equity ∧
      (btEntryPhase hedge s bar).history = s.history := by
  unfold btEntryPhase
  repeat first | exact ⟨rfl, rfl⟩ | split

/-- The exit phase either leaves equity and history unchanged, or appends one
Trade and adds exactly its PnL to equity. -/
theorem btExitPhase_cases (hedge : ℚ) (s : BTState) (bar : BTBar) :
    ((btExitPhase hedge s bar).equity = s.equity ∧
      (btExitPhase hedge s bar).history = s.history) ∨
    ∃ t, (btExitPhase hedge s bar).history = s.history ++ [t] ∧
      (btExitPhase hedge s bar).equity = s.equity + t.pnl := by
  unfold btExitPhase
  split
  · exact Or.inr ⟨closedTrade hedge s bar, rfl, rfl⟩
  · exact Or.inl ⟨rfl, rfl⟩

/-- A backtest step appends exactly one equity observation to the curve. -/
theorem btStep_curve (hedge : ℚ) (s : BTState) (bar : BTBar) :
    (btStep hedge s bar).equityCurve =
      s.equityCurve ++ [(btStep hedge s bar).equity] := by
  show (btPushPhase _).equityCurve = _ ++ [(btPushPhase _).equity]
  unfold btPushPhase
  simp only
  rw [btEntryPhase_curve, btExitPhase_curve]

/-- A backtest step either changes neither equity nor history, or records one
Trade and realizes exactly its PnL into equity. -/
theorem btStep_cases (hedge : ℚ) (s : BTState) (bar : BTBar) :
    ((btStep hedge s bar).equity = s.equity ∧
      (btStep hedge s bar).history = s.history) ∨
    ∃ t, (btStep hedge s bar).history = s.history ++ [t] ∧
      (btStep hedge s bar).equity = s.equity + t.pnl := by
  have hpush : ∀ u : BTState, (btPushPhase u).equity = u.equity ∧
      (btPushPhase u).history = u.history := fun u => ⟨rfl, rfl⟩
  have hentry := btEntryPhase_equity_history hedge (btExitPhase hedge s bar) bar
  have hexit := btExitPhase_cases hedge s bar
  have h1 : (btStep hedge s bar).equity = (btExitPhase hedge s bar).equity := by
    show (btPushPhase _).equity = _
    rw [(hpush _).1, hentry.1]
  have h2 : (btStep hedge s bar).history = (btExitPhase hedge s bar).history := by
    show (btPushPhase _).history = _
    rw [(hpush _).2, hentry.2]
  rcases hexit with h | ⟨t, ht, he⟩
  · exact Or.inl ⟨h1.trans h.1, h2.trans h.2⟩
  · exact Or.inr ⟨t, h2.trans ht, h1.trans he⟩

/-- Running the backtest only ever appends to the equity curve. -/
theorem btFold_curve (hedge : ℚ) : ∀ (bars : List BTBar) (s : BTState),
    (bars.foldl (btStep hedge) s).equityCurve =
      s.equityCurve ++ ((bars.scanl (btStep hedge) s).drop 1).map BTState.equity := by
  intro bars
  induction bars with
  | nil => intro s; simp [List.scanl_nil]
  | cons bar rest ih =>
    intro s
    have hhead : ∀ (c : BTState) (l : List BTBar),
        (l.scanl (btStep hedge) c).map BTState.equity =
          c.equity :: ((l.scanl (btStep hedge) c).drop 1).map BTState.equity := by
      intro c l
      cases l with
      | nil => simp [List.scanl_nil]
      | cons x xs => simp [List.scanl_cons]
    calc ((bar :: rest).foldl (btStep hedge) s).equityCurve
        = (rest.foldl (btStep hedge) (btStep hedge s bar)).equityCurve := rfl
      _ = (btStep hedge s bar).equityCurve ++
            ((rest.scanl (btStep hedge) (btStep hedge s bar)).drop 1).map BTState.equity := ih _
      _ = s.equityCurve ++
            (((bar :: rest).scanl (btStep hedge) s).drop 1).map BTState.equity := by
          rw [btStep_curve, List.scanl_cons]
          simp only [List.singleton_append, List.drop_succ_cons, List.append_assoc,
            List.cons_append, List.nil_append, List.drop_zero]
          rw [← hhead]

/-- The last equity-curve entry is the current equity, throughout the run. -/
theorem btFold_curve_last (hedge : ℚ) : ∀ (bars : List BTBar) (s : BTState),
    s.equityCurve.getLast? = some s.equity →
    ((bars.foldl (btStep hedge) s).equityCurve).getLast? =
      some (bars.foldl (btStep hedge) s).equity := by
  intro bars
  induction bars with
  | nil => intro s h; exact h
  | cons bar rest ih =>
    intro s _
    exact ih (btStep hedge s bar) (by rw [btStep_curve]; simp)

/-- The realized-equity invariant: equity is always the initial capital plus
the sum of the recorded trades' PnLs. -/
theorem btFold_sumInv (hedge : ℚ) : ∀ (bars : List BTBar) (s : BTState),
    s.equity = 10000 + (s.history.map Trade.pnl).sum →
    (bars.foldl (btStep hedge) s).equity =
      10000 + (((bars.foldl (btStep hedge) s).history).map Trade.pnl).sum := by
  intro bars
  induction bars with
  | nil => intro s h; exact h
  | cons bar rest ih =>
    intro s h
    refine ih (btStep hedge s bar) ?_
    rcases btStep_cases hedge s bar with ⟨he, hh⟩ | ⟨t, hh, he⟩
    · rw [he, hh, h]
    · rw [he, hh, h]; simp [List.sum_append]; ring

/-- Adjacent entries of a `scanl` are related by one application of the
step function. -/
theorem scanl_get?_succ {α β : Type} (f : β → α → β) :
    ∀ (l : List α) (b : β) (k : ℕ) (s s' : β),
    (l.scanl f b).get? k = some s → (l.scanl f b).get? (k + 1) = some s' →
    ∃ a, l.get? k = some a ∧ s' = f s a := by
  intro l
  induction l with
  | nil =>
    intro b k s s' _ h2
    rw [List.scanl_nil] at h2
    rcases k with _ | k <;> simp at h2
  | cons x xs ih =>
    intro b k s s' h1 h2
    rw [List.scanl_cons] at h1 h2
    rcases k with _ | k
    · simp at h1
      simp at h2
      subst h1
      exact ⟨x, rfl, h2.symm⟩
    · simp only [List.singleton_append, List.get?_cons_succ] at h1 h2
      obtain ⟨a, ha, hfa⟩ := ih (f b x) k s s' h1 h2
      exact ⟨a, by simpa using ha, hfa⟩

end BacktestLemmas

section CurveLemmas

/-- Equity-curve shape of `calculateBacktest`: one initial entry `10000` plus
one entry per processed bar. -/
theorem calculateBacktest_curve (sqrtFn : ℚ → ℚ) (zs : List (Option ℚ))
    (pA pB : List ℚ) (hedge : ℚ) (ds : List String) :
    (calculateBacktest sqrtFn zs pA pB hedge ds).equityCurve.length
        = 1 + (zs.length - 1) ∧
      (calculateBacktest sqrtFn zs pA pB hedge ds).equityCurve.head?
        = some 10000 := by
  have hcurve : (calculateBacktest sqrtFn zs pA pB hedge ds).equityCurve =
      ((btBars zs pA pB ds).foldl (btStep hedge) btInit).equityCurve := rfl
  rw [hcurve, btFold_curve]
  constructor
  · simp [btInit, btBars, List.length_scanl]
    omega
  · simp [btInit]

/-- The states of the backtest run project onto the equity curve. -/
theorem btStates_map_equity (hedge : ℚ) (bars : List BTBar) :
    (bars.foldl (btStep hedge) btInit).equityCurve =
      (btStates hedge bars).map BTState.equity := by
  rw [btFold_curve]
  unfold btStates
  cases bars with
  | nil => simp [List.scanl_nil, btInit]
  | cons x xs => simp [List.scanl_cons, btInit]

/-- A bar whose z-score is non-finite can neither open nor close a position:
the step leaves a flat state flat and records nothing. -/
theorem btStep_none (hedge : ℚ) (s : BTState) (bar : BTBar)
    (hz : bar.z = none) (hp : s.position = 0) :
    (btStep hedge s bar).position = 0 ∧
      (btStep hedge s bar).totalTrades = s.totalTrades := by
  unfold btStep btPushPhase btEntryPhase btExitPhase
  simp [hz, hp, zGt, zLt, zGe, zLe]

/-- A backtest over bars with only non-finite z-scores triggers no trades. -/
theorem btFold_no_trades (hedge : ℚ) : ∀ (bars : List BTBar),
    (∀ b ∈ bars, b.z = none) → ∀ s : BTState, s.position = 0 →
    ((bars.foldl (btStep hedge) s).totalTrades = s.totalTrades ∧
      (bars.foldl (btStep hedge) s).position = 0) := by
  intro bars
  induction bars with
  | nil => intro _ s hp; exact ⟨rfl, hp⟩
  | cons bar rest ih =>
    intro hall s hp
    have hz := hall bar (List.mem_cons_self bar rest)
    obtain ⟨hpos, htr⟩ := btStep_none hedge s bar hz hp
    obtain ⟨h1, h2⟩ := ih (fun b hb => hall b (List.mem_cons_of_mem bar hb))
      (btStep hedge s bar) hpos
    exact ⟨by rw [List.foldl_cons, h1, htr], by rw [List.foldl_cons, h2]⟩

end CurveLemmas

section ClaimC1

/-- **C1 (counterexample).** For the positive, equal-length price series
`A = [2,3,4]`, `B = [1,2,3]` with the (here: identity) log oracle, the
log-spread is identically `0` — constant, so the spread's standard deviation
is `0` — yet `analyzePairs` returns the non-finite marker (`none`, the `NaN`
of the unguarded division `0/0`) at every index, not the guarded `some 0`
the claim asserts. -/
theorem analyzePairs_constSpread_zscore_not_zero :
    (analyzePairs id id [2, 3, 4] [1, 2, 3] ["d1", "d2", "d3"]).zScore
        = [none, none, none] ∧
      (analyzePairs id id [2, 3, 4] [1, 2, 3] ["d1", "d2", "d3"]).zScore
        ≠ [some 0, some 0, some 0] := by
  have h : (analyzePairs id id [2, 3, 4] [1, 2, 3] ["d1", "d2", "d3"]).zScore
      = [none, none, none] := by
    norm_num [analyzePairs, pairsSpread, calculateOLS, olsNum, olsDen, mean, std, jsDiv]
  exact ⟨h, by rw [h]; simp⟩

/-- **C1 (amended).** For every pair of price series whose log-spread is
constant (every spread value equals the spread mean, hence the standard
deviation is zero), `analyzePairs` produces the non-finite `NaN` marker
(`none`) at every z-score index — the division by the zero standard deviation
is unguarded — and the backtest consequently still triggers zero trades,
because `NaN` comparisons are false. -/
theorem analyzePairs_constSpread (lnFn sqrtFn : ℚ → ℚ)
    (pricesA pricesB : List ℚ) (dates : List String)
    (h0 : sqrtFn 0 = 0)
    (hconst : ∀ x ∈ (analyzePairs lnFn sqrtFn pricesA pricesB dates).spread,
      x = (analyzePairs lnFn sqrtFn pricesA pricesB dates).stats.meanSpread) :
    (∀ z ∈ (analyzePairs lnFn sqrtFn pricesA pricesB dates).zScore, z = none) ∧
      (analyzePairs lnFn sqrtFn pricesA pricesB dates).backtest.trades = 0 := by
  set spread := pairsSpread (pricesA.map lnFn) (pricesB.map lnFn) with hspread
  have hsp : (analyzePairs lnFn sqrtFn pricesA pricesB dates).spread = spread := rfl
  have hms : (analyzePairs lnFn sqrtFn pricesA pricesB dates).stats.meanSpread
      = mean spread := rfl
  rw [hsp, hms] at hconst
  have hstd : std sqrtFn spread = 0 := by
    unfold std
    have hsum : (spread.map (fun v => (v - mean spread) ^ 2)).sum = 0 := by
      apply List.sum_eq_zero
      intro y hy
      obtain ⟨v, hv, rfl⟩ := List.mem_map.mp hy
      rw [hconst v hv]
      ring
    rw [hsum, zero_div, h0]
  have hzdef : (analyzePairs lnFn sqrtFn pricesA pricesB dates).zScore =
      spread.map (fun s => jsDiv (s - mean spread) (std sqrtFn spread)) := rfl
  have hz : ∀ z ∈ (analyzePairs lnFn sqrtFn pricesA pricesB dates).zScore, z = none := by
    rw [hzdef]
    intro z hzm
    obtain ⟨v, _, rfl⟩ := List.mem_map.mp hzm
    simp [jsDiv, hstd]
  refine ⟨hz, ?_⟩
  have hgetD : ∀ i, ((analyzePairs lnFn sqrtFn pricesA pricesB dates).zScore).getD i none
      = none := by
    intro i
    rw [List.getD_eq_getD_get?]
    rcases hgo : ((analyzePairs lnFn sqrtFn pricesA pricesB dates).zScore).get? i with _ | x
    · rfl
    · have := hz x (List.get?_mem hgo)
      rw [this]
      rfl
  have hbz : ∀ b ∈ btBars (analyzePairs lnFn sqrtFn pricesA pricesB dates).zScore
      pricesA pricesB dates, b.z = none := by
    intro b hb
    obtain ⟨i, _, rfl⟩ := List.mem_map.mp hb
    exact hgetD i
  have htr : (analyzePairs lnFn sqrtFn pricesA pricesB dates).backtest.trades =
      ((btBars (analyzePairs lnFn sqrtFn pricesA pricesB dates).zScore pricesA pricesB
        dates).foldl (btStep (analyzePairs lnFn sqrtFn pricesA pricesB dates).hedge)
        btInit).totalTrades := rfl
  rw [htr, (btFold_no_trades _ _ hbz btInit rfl).1]
  rfl

/-- **C1 (witness).** The amended claim instantiated at the constant-spread
series `A = [3,4,5]`, `B = [2,3,4]`. -/
theorem analyzePairs_constSpread_witness :
    (∀ x ∈ (analyzePairs id id [3, 4, 5] [2, 3, 4] ["a", "b", "c"]).spread,
      x = (analyzePairs id id [3, 4, 5] [2, 3, 4] ["a", "b", "c"]).stats.meanSpread) ∧
      (analyzePairs id id [3, 4, 5] [2, 3, 4] ["a", "b", "c"]).backtest.trades = 0 := by
  have hc : ∀ x ∈ (analyzePairs id id [3, 4, 5] [2, 3, 4] ["a", "b", "c"]).spread,
      x = (analyzePairs id id [3, 4, 5] [2, 3, 4] ["a", "b", "c"]).stats.meanSpread := by
    norm_num [analyzePairs, pairsSpread, calculateOLS, olsNum, olsDen, mean, std]
  exact ⟨hc,
    (analyzePairs_constSpread id id [3, 4, 5] [2, 3, 4] ["a", "b", "c"] rfl hc).2⟩

end ClaimC1

section ClaimC4

/-- **C4 (counterexample).** For the 3-bar input series `A = [1,2,4]`,
`B = [1,2,3]` (identity oracles), the backtest's equity curve has length 3 —
the series length — and not `3 + 1` as the claim states. -/
theorem analyzePairs_equityCurve_length_ne_succ :
    (analyzePairs id id [1, 2, 4] [1, 2, 3] ["d1", "d2", "d3"]).backtest.equityCurve.length
      ≠ 3 + 1 := by
  have h := calculateBacktest_curve id
    (analyzePairs id id [1, 2, 4] [1, 2, 3] ["d1", "d2", "d3"]).zScore
    [1, 2, 4] [1, 2, 3]
    (analyzePairs id id [1, 2, 4] [1, 2, 3] ["d1", "d2", "d3"]).hedge
    ["d1", "d2", "d3"]
  have hb : (analyzePairs id id [1, 2, 4] [1, 2, 3] ["d1", "d2", "d3"]).backtest =
      calculateBacktest id (analyzePairs id id [1, 2, 4] [1, 2, 3] ["d1", "d2", "d3"]).zScore
        [1, 2, 4] [1, 2, 3]
        (analyzePairs id id [1, 2, 4] [1, 2, 3] ["d1", "d2", "d3"]).hedge
        ["d1", "d2", "d3"] := rfl
  have hzl : (analyzePairs id id [1, 2, 4] [1, 2, 3] ["d1", "d2", "d3"]).zScore.length = 3 := by
    simp [analyzePairs, pairsSpread]
  rw [hb, h.1, hzl]
  omega

/-- **C4 (amended).** For every pair of equal-length input price series of
length `n ≥ 1`, the backtest's equity curve has length `n` (one initial entry
plus one per bar after the first) and its first element is the initial
capital `10000`. -/
theorem analyzePairs_equityCurve_length (lnFn sqrtFn : ℚ → ℚ)
    (pricesA pricesB : List ℚ) (dates : List String)
    (hlen : pricesB.length = pricesA.length) (hne : 1 ≤ pricesA.length) :
    (analyzePairs lnFn sqrtFn pricesA pricesB dates).backtest.equityCurve.length
        = pricesA.length ∧
      (analyzePairs lnFn sqrtFn pricesA pricesB dates).backtest.equityCurve.head?
        = some 10000 := by
  have hz : (analyzePairs lnFn sqrtFn pricesA pricesB dates).zScore.length
      = pricesA.length := by
    simp [analyzePairs, pairsSpread, hlen]
  have hb : (analyzePairs lnFn sqrtFn pricesA pricesB dates).backtest =
      calculateBacktest sqrtFn (analyzePairs lnFn sqrtFn pricesA pricesB dates).zScore
        pricesA pricesB (analyzePairs lnFn sqrtFn pricesA pricesB dates).hedge dates := rfl
  rw [hb]
  obtain ⟨h1, h2⟩ := calculateBacktest_curve sqrtFn
    (analyzePairs lnFn sqrtFn pricesA pricesB dates).zScore pricesA pricesB
    (analyzePairs lnFn sqrtFn pricesA pricesB dates).hedge dates
  refine ⟨?_, h2⟩
  rw [h1, hz]
  omega

/-- **C4 (witness).** The amended claim instantiated at a concrete 3-bar
input. -/
theorem analyzePairs_equityCurve_length_witness :
    ([1, 2, 3] : List ℚ).length = ([2, 3, 4] : List ℚ).length ∧
      1 ≤ ([2, 3, 4] : List ℚ).length ∧
      (analyzePairs id id [2, 3, 4] [1, 2, 3] ["x", "y", "z"]).backtest.equityCurve.length
        = 3 :=
  ⟨rfl, by decide,
    (analyzePairs_equityCurve_length id id [2, 3, 4] [1, 2, 3] ["x", "y", "z"] rfl
      (by decide)).1⟩

end ClaimC4

section ClaimC7

/-- **C7.** In every backtest run: the equity curve is exactly the equity of
the successive loop states; the final equity equals the initial capital
`10000` plus the sum of all recorded trades' PnLs; and between consecutive
states the equity changes only when that bar closes a position — appending
exactly one Trade whose PnL is the equity change (mark-to-market of an open
position never enters the curve). -/
theorem backtest_equity_conservation (sqrtFn : ℚ → ℚ) (zs : List (Option ℚ))
    (pA pB : List ℚ) (hedge : ℚ) (ds : List String) :
    (calculateBacktest sqrtFn zs pA pB hedge ds).equityCurve =
        (btStates hedge (btBars zs pA pB ds)).map BTState.equity ∧
      (calculateBacktest sqrtFn zs pA pB hedge ds).equityCurve.getLast? =
        some (10000 +
          (((calculateBacktest sqrtFn zs pA pB hedge ds).history).map Trade.pnl).sum) ∧
      ∀ k s s', (btStates hedge (btBars zs pA pB ds)).get? k = some s →
        (btStates hedge (btBars zs pA pB ds)).get? (k + 1) = some s' →
        s'.equity ≠ s.equity →
        ∃ t, s'.history = s.history ++ [t] ∧ s'.equity = s.equity + t.pnl := by
  have hcurve : (calculateBacktest sqrtFn zs pA pB hedge ds).equityCurve =
      ((btBars zs pA pB ds).foldl (btStep hedge) btInit).equityCurve := rfl
  have hhist : (calculateBacktest sqrtFn zs pA pB hedge ds).history =
      ((btBars zs pA pB ds).foldl (btStep hedge) btInit).history := rfl
  refine ⟨by rw [hcurve, btStates_map_equity], ?_, ?_⟩
  · rw [hcurve, hhist,
      btFold_curve_last hedge (btBars zs pA pB ds) btInit rfl,
      btFold_sumInv hedge (btBars zs pA pB ds) btInit (by simp [btInit])]
  · intro k s s' h1 h2 hne
    obtain ⟨bar, _, rfl⟩ := scanl_get?_succ (btStep hedge) (btBars zs pA pB ds) btInit k s s' h1 h2
    rcases btStep_cases hedge s bar with ⟨he, _⟩ | ⟨t, ht, he⟩
    · exact absurd he hne
    · exact ⟨t, ht, he⟩

/-- **C7 (witness).** The conservation identity at a concrete run containing
one full round trip. -/
theorem backtest_equity_conservation_witness :
    (calculateBacktest id [some 0, some (-3), some 1] [1, 2, 3] [1, 2, 3] 1
        ["a", "b", "c"]).equityCurve.getLast? =
      some (10000 +
        (((calculateBacktest id [some 0, some (-3), some 1] [1, 2, 3] [1, 2, 3] 1
          ["a", "b", "c"]).history).map Trade.pnl).sum) :=
  (backtest_equity_conservation id [some 0, some (-3), some 1] [1, 2, 3] [1, 2, 3] 1
    ["a", "b", "c"]).2.1

end ClaimC7

section ClaimC6

/-- **C6.** `calculateHalfLife` returns the sentinel `999` exactly when the
AR(1) slope `φ` of `spread[t]` on `spread[t-1]` satisfies `φ ≥ 1` or `φ ≤ 0`,
and otherwise returns `ln 2 / (−ln φ)`; `analyzePairs` sets `isCointegrated`
exactly when the resulting half-life lies strictly between 0 and 60.  The
hypotheses record the claim's presuppositions: the AR(1) regression has a
well-defined slope (non-degenerate regressor; the source produces `NaN`
otherwise), and the mean-reversion formula does not coincidentally equal the
sentinel value. -/
theorem halfLife_sentinel_and_cointegration (lnFn : ℚ → ℚ) (spread : List ℚ)
    (hden : olsDen spread.dropLast ≠ 0)
    (hne : lnFn 2 / (-lnFn (hlSlope spread)) ≠ 999) :
    ((calculateHalfLife lnFn spread = 999 ↔
        (1 ≤ hlSlope spread ∨ hlSlope spread ≤ 0)) ∧
      (0 < hlSlope spread → hlSlope spread < 1 →
        calculateHalfLife lnFn spread = lnFn 2 / (-lnFn (hlSlope spread)))) ∧
    ∀ (sqrtFn : ℚ → ℚ) (pricesA pricesB : List ℚ) (dates : List String),
      ((analyzePairs lnFn sqrtFn pricesA pricesB dates).isCointegrated = true ↔
        (0 < (analyzePairs lnFn sqrtFn pricesA pricesB dates).halfLife ∧
          (analyzePairs lnFn sqrtFn pricesA pricesB dates).halfLife < 60)) := by
  refine ⟨⟨?_, ?_⟩, ?_⟩
  · unfold calculateHalfLife
    constructor
    · intro h
      by_contra hcond
      rw [if_neg hcond] at h
      exact hne h
    · intro hcond
      rw [if_pos hcond]
  · intro h1 h2
    unfold calculateHalfLife
    rw [if_neg]
    push_neg
    exact ⟨by linarith, h1⟩
  · intro sqrtFn pricesA pricesB dates
    have hic : (analyzePairs lnFn sqrtFn pricesA pricesB dates).isCointegrated =
        (decide ((analyzePairs lnFn sqrtFn pricesA pricesB dates).halfLife < 60) &&
          decide (0 < (analyzePairs lnFn sqrtFn pricesA pricesB dates).halfLife)) := rfl
    rw [hic]
    simp only [Bool.and_eq_true, decide_eq_true_eq]
    tauto

/-- **C6 (witness).** The sentinel characterization at the AR(1) spread
`[1, 1/2, 1/4]` (slope `1/2`, half-life formula value `2` with a log-like
oracle). -/
theorem halfLife_sentinel_witness :
    olsDen ([1, 1/2, 1/4] : List ℚ).dropLast ≠ 0 ∧
      (calculateHalfLife (fun x => x - 1) [1, 1/2, 1/4] = 999 ↔
        (1 ≤ hlSlope [1, 1/2, 1/4] ∨ hlSlope [1, 1/2, 1/4] ≤ 0)) := by
  have hden : olsDen ([1, 1/2, 1/4] : List ℚ).dropLast ≠ 0 := by
    norm_num [olsDen, mean]
  have hne : (fun x : ℚ => x - 1) 2 / (-(fun x : ℚ => x - 1) (hlSlope [1, 1/2, 1/4]))
      ≠ 999 := by
    norm_num [hlSlope, calculateOLS, olsNum, olsDen, mean]
  exact ⟨hden,
    ((halfLife_sentinel_and_cointegration (fun x => x - 1) [1, 1/2, 1/4] hden hne).1).1⟩

end ClaimC6

section ClaimC3

/-- The configuration of the C3 counterexample: a wide stop-loss (50%) next
to a tight trailing stop (5%), separating the two trigger distances. -/
def cfgCEx3 : BacktestConfig :=
  { entryThresholdUpper := 2, entryThresholdLower := -2, exitThreshold := 0
    stopLossPercent := some 50, trailingStopPercent := some 5
    capitalPerLeg := 1000, rollingWindow := none, maxHoldingPeriod := some 20 }

/-- The open long-spread state of the C3 counterexample, with peak PnL% 20. -/
def stateCEx3 : CfgState :=
  { cfgInit with
    position := 1, entryPriceA := 100, entryPriceB := 50
    entrySharesA := 10, entrySharesB := 20, entryIndex := 3, peakPnlPct := 20 }

/-- The bar of the C3 counterexample: PnL% is 10, a fall of 10 from the peak
of 20 — beyond `trailingStopPercent = 5` but nowhere near
`stopLossPercent = 50`. -/
def barCEx3 : CfgBar :=
  { i := 5, z := some (-1), pA := 120, pB := 50, date := "d" }

/-- **C3 (counterexample).** The trailing stop's fall threshold is the
`trailingStopPercent` config field ("Trailing stop from peak %,
null = disabled" in the source `BacktestConfig` declaration), not
`stopLossPercent` as the claim states: at this bar the position closes and a
Trade is recorded although the Z-exit, stop-loss and max-holding triggers are
all false and PnL% has not fallen `stopLossPercent = 50` below its peak — it
has fallen only 10, past the configured `trailingStopPercent = 5`. -/
theorem cfgBacktest_trailing_drop_not_stopLoss :
    (cfgExitPhase cfgCEx3 1 stateCEx3 barCEx3).history =
        stateCEx3.history ++ [cfgClosedTrade 1 stateCEx3 barCEx3] ∧
      zExitHit cfgCEx3 stateCEx3.position barCEx3.z = false ∧
      stopLossHit cfgCEx3
        (cfgPnlPct cfgCEx3 1 (cfgClosedTrade 1 stateCEx3 barCEx3).pnl) = false ∧
      maxHoldHit cfgCEx3 (barCEx3.i - stateCEx3.entryIndex) = false ∧
      cfgCEx3.stopLossPercent = some 50 ∧
      max stateCEx3.peakPnlPct
          (cfgPnlPct cfgCEx3 1 (cfgClosedTrade 1 stateCEx3 barCEx3).pnl) - 50 <
        cfgPnlPct cfgCEx3 1 (cfgClosedTrade 1 stateCEx3 barCEx3).pnl := by
  norm_num [cfgExitPhase, cfgShouldExit, cfgClosedTrade, cfgPnlPct, zExitHit,
    stopLossHit, trailingStopHit, maxHoldHit, zGe, zLe, cfgCEx3, stateCEx3,
    barCEx3, cfgInit]

/-- **C3 (amended)** (spec-modelled; the config-driven backtest implementation
is not among the sources — only the `BacktestConfig` declaration and its UI
callers are, so the engine is modelled from the spec, with the trailing-stop
distance read from the `trailingStopPercent` field as its source declaration
comment specifies, rather than the claim's `stopLossPercent`).
While a position is open,
each bar checks the four exit triggers — Z back past `exitThreshold`
(direction-appropriate), stop-loss (`PnL% ≤ −stopLossPercent`), trailing stop
(PnL% fallen `trailingStopPercent` below its peak, only once
the peak PnL% is positive) and max holding period (bars-in-trade
`≥ maxHoldingPeriod`) — in that order (first true wins through the
short-circuit disjunction), and any one of them closes the position,
realizes the PnL into equity and records a Trade; the thresholds reach the
backtest through the optional config argument of the modelled
`analyzePairs`. -/
theorem cfgBacktest_exit_triggers (cfg : BacktestConfig) (hedge : ℚ)
    (s : CfgState) (bar : CfgBar) (hpos : s.position ≠ 0) :
    (((cfgExitPhase cfg hedge s bar).history =
        s.history ++ [cfgClosedTrade hedge s bar] ↔
      (zExitHit cfg s.position bar.z = true ∨
        stopLossHit cfg (cfgPnlPct cfg hedge (cfgClosedTrade hedge s bar).pnl) = true ∨
        trailingStopHit cfg (cfgPnlPct cfg hedge (cfgClosedTrade hedge s bar).pnl)
          (max s.peakPnlPct (cfgPnlPct cfg hedge (cfgClosedTrade hedge s bar).pnl)) = true ∨
        maxHoldHit cfg (bar.i - s.entryIndex) = true)) ∧
      ((cfgExitPhase cfg hedge s bar).history ≠ s.history →
        (cfgExitPhase cfg hedge s bar).equity =
            s.equity + (cfgClosedTrade hedge s bar).pnl ∧
          (cfgExitPhase cfg hedge s bar).position = 0)) ∧
    (∀ bar2, cfgStep cfg hedge s bar2 =
      cfgPushPhase (cfgEntryPhase cfg hedge (cfgExitPhase cfg hedge s bar2) bar2)) ∧
    ∀ (lnFn sqrtFn : ℚ → ℚ) (pA pB : List ℚ) (ds : List String),
      (analyzePairsCfg lnFn sqrtFn pA pB ds cfg).backtest =
        calculateBacktestCfg cfg sqrtFn
          (zScoresCfg sqrtFn (analyzePairsCfg lnFn sqrtFn pA pB ds cfg).spread
            cfg.rollingWindow)
          pA pB (analyzePairsCfg lnFn sqrtFn pA pB ds cfg).hedge ds := by
  refine ⟨⟨?_, ?_⟩, fun bar2 => rfl, fun lnFn sqrtFn pA pB ds => rfl⟩
  · unfold cfgExitPhase
    rw [if_pos hpos]
    dsimp only
    split
    next hexit =>
      refine iff_of_true rfl ?_
      rw [cfgShouldExit] at hexit
      simp only [Bool.or_eq_true] at hexit
      tauto
    next hexit =>
      refine iff_of_false ?_ ?_
      · intro hcon
        have := congrArg List.length hcon
        simp at this
      · intro hcon
        apply hexit
        rw [cfgShouldExit]
        simp only [Bool.or_eq_true]
        tauto
  · unfold cfgExitPhase
    rw [if_pos hpos]
    dsimp only
    split
    next => exact fun _ => ⟨rfl, rfl⟩
    next => exact fun hne => absurd rfl hne

/-- The configuration used by the C3 witness: stop-loss 10%, trailing 5%,
max holding 20 bars. -/
def cfgExampleC3 : BacktestConfig :=
  { entryThresholdUpper := 2, entryThresholdLower := -2, exitThreshold := 0
    stopLossPercent := some 10, trailingStopPercent := some 5
    capitalPerLeg := 1000, rollingWindow := none, maxHoldingPeriod := some 20 }

/-- The open long-spread state used by the C3 witness. -/
def stateExampleC3 : CfgState :=
  { cfgInit with
    position := 1, entryPriceA := 100, entryPriceB := 50
    entrySharesA := 10, entrySharesB := 20, entryIndex := 3 }

/-- The bar used by the C3 witness (PnL% = −10 at this bar, hitting the
stop-loss). -/
def barExampleC3 : CfgBar :=
  { i := 5, z := some (-1), pA := 80, pB := 50, date := "d" }

/-- **C3 (witness).** A concrete open long-spread position hit by the
stop-loss trigger: PnL% is −10 with `stopLossPercent = 10`, so the exit
characterization applies and the bar records the closing Trade. -/
theorem cfgBacktest_exit_triggers_witness :
    stateExampleC3.position ≠ 0 ∧
    ((cfgExitPhase cfgExampleC3 1 stateExampleC3 barExampleC3).history =
        stateExampleC3.history ++ [cfgClosedTrade 1 stateExampleC3 barExampleC3] ↔
      (zExitHit cfgExampleC3 stateExampleC3.position barExampleC3.z = true ∨
        stopLossHit cfgExampleC3
          (cfgPnlPct cfgExampleC3 1 (cfgClosedTrade 1 stateExampleC3 barExampleC3).pnl)
          = true ∨
        trailingStopHit cfgExampleC3
          (cfgPnlPct cfgExampleC3 1 (cfgClosedTrade 1 stateExampleC3 barExampleC3).pnl)
          (max stateExampleC3.peakPnlPct
            (cfgPnlPct cfgExampleC3 1 (cfgClosedTrade 1 stateExampleC3 barExampleC3).pnl))
          = true ∨
        maxHoldHit cfgExampleC3 (barExampleC3.i - stateExampleC3.entryIndex) = true)) :=
  ⟨by decide,
    (cfgBacktest_exit_triggers cfgExampleC3 1 stateExampleC3 barExampleC3 (by decide)).1.1⟩

end ClaimC3

section ClaimC2

/-- One-step unfolding of `bisectLoop`. -/
theorem bisectLoop_succ (price : ℚ → ℚ) (p lo hi : ℚ) (fuel i : ℕ) :
    bisectLoop price p lo hi (fuel + 1) i =
      (let sigmaMid := (lo + hi) / 2
       let diff := price sigmaMid - p
       if |diff| < 1 / 1000000 ∨ hi - lo < 1 / 1000000 then
         { iv := sigmaMid, converged := true, iterations := i + 1 }
       else if 0 < diff then bisectLoop price p lo sigmaMid fuel (i + 1)
       else bisectLoop price p sigmaMid hi fuel (i + 1)) := rfl

/-- One-step unfolding of `nrLoop`. -/
theorem nrLoop_succ (price vega : ℚ → ℚ) (p sigma : ℚ) (fuel i : ℕ) :
    nrLoop price vega p sigma (fuel + 1) i =
      (let diff := price sigma - p
       if |diff| < 1 / 10000000 then
         { iv := sigma, converged := true, iterations := i + 1 }
       else
         let v := vega sigma
         if |v| < 1 / 10000000000 then bisectionIV price p
         else nrLoop price vega p
           (max (1 / 1000) (min (sigma - diff / v) 10)) fuel (i + 1)) := rfl

/-- What a `converged = true` bisection result guarantees: either the price
error is below the bisection precision, or the returned `iv` is only the
midpoint of a bracket inside `[0.001, 5]` that collapsed below `1e-6` —
with no bound at all on the price error in the second case. -/
theorem bisectLoop_converged (price : ℚ → ℚ) (p : ℚ) :
    ∀ (fuel i : ℕ) (lo hi : ℚ), 1 / 1000 ≤ lo → hi ≤ 5 → lo ≤ hi →
    (bisectLoop price p lo hi fuel i).converged = true →
    (|price (bisectLoop price p lo hi fuel i).iv - p| < 1 / 1000000 ∨
      ∃ lo' hi', (bisectLoop price p lo hi fuel i).iv = (lo' + hi') / 2 ∧
        hi' - lo' < 1 / 1000000 ∧ 1 / 1000 ≤ lo' ∧ lo' ≤ hi' ∧ hi' ≤ 5) := by
  intro fuel
  induction fuel with
  | zero =>
    intro i lo hi _ _ _ hconv
    simp [show (bisectLoop price p lo hi 0 i).converged = false from rfl] at hconv
  | succ fuel ih =>
    intro i lo hi hlo hhi hlohi hconv
    rw [bisectLoop_succ] at hconv ⊢
    dsimp only at hconv ⊢
    by_cases hcond : |price ((lo + hi) / 2) - p| < 1 / 1000000 ∨
        hi - lo < 1 / 1000000
    · rw [if_pos hcond] at hconv ⊢
      rcases hcond with hdiff | hwidth
      · exact Or.inl hdiff
      · exact Or.inr ⟨lo, hi, rfl, hwidth, hlo, hlohi, hhi⟩
    · rw [if_neg hcond] at hconv ⊢
      by_cases hd : 0 < price ((lo + hi) / 2) - p
      · rw [if_pos hd] at hconv ⊢
        exact ih (i + 1) lo ((lo + hi) / 2) hlo (by linarith) (by linarith) hconv
      · rw [if_neg hd] at hconv ⊢
        exact ih (i + 1) ((lo + hi) / 2) hi (by linarith) hhi (by linarith) hconv

/-- What a `converged = true` Newton-Raphson result guarantees: either the
price error is below `1e-6` (the Newton-Raphson convergence branch actually
achieves `1e-7`), or the result came from the bisection fallback's collapsed
bracket. -/
theorem nrLoop_converged (price vega : ℚ → ℚ) (p : ℚ) :
    ∀ (fuel i : ℕ) (sigma : ℚ),
    (nrLoop price vega p sigma fuel i).converged = true →
    (|price (nrLoop price vega p sigma fuel i).iv - p| < 1 / 1000000 ∨
      ∃ lo' hi', (nrLoop price vega p sigma fuel i).iv = (lo' + hi') / 2 ∧
        hi' - lo' < 1 / 1000000 ∧ 1 / 1000 ≤ lo' ∧ lo' ≤ hi' ∧ hi' ≤ 5) := by
  intro fuel
  induction fuel with
  | zero =>
    intro i sigma hconv
    have h0 : nrLoop price vega p sigma 0 i =
        bisectLoop price p (1 / 1000) 5 100 0 := rfl
    rw [h0] at hconv ⊢
    exact bisectLoop_converged price p 100 0 (1 / 1000) 5 le_rfl le_rfl
      (by norm_num) hconv
  | succ fuel ih =>
    intro i sigma hconv
    rw [nrLoop_succ] at hconv ⊢
    dsimp only at hconv ⊢
    by_cases hdiff : |price sigma - p| < 1 / 10000000
    · rw [if_pos hdiff] at hconv ⊢
      exact Or.inl (lt_trans hdiff (by norm_num))
    · rw [if_neg hdiff] at hconv ⊢
      by_cases hv : |vega sigma| < 1 / 10000000000
      · rw [if_pos hv] at hconv ⊢
        have h0 : bisectionIV price p = bisectLoop price p (1 / 1000) 5 100 0 := rfl
        rw [h0] at hconv ⊢
        exact bisectLoop_converged price p 100 0 (1 / 1000) 5 le_rfl le_rfl
          (by norm_num) hconv
      · rw [if_neg hv] at hconv ⊢
        exact ih (i + 1) _ hconv

/-- **C2 (amended).** For every implied-volatility query that passes the
input checks, a `converged = true` result guarantees only: either the
Black-Scholes price at the returned `iv` is within `1e-6` of the market
price (the Newton-Raphson branch achieves `1e-7`), or the result came from
the bisection fallback whose bracket inside `[0.001, 5]` collapsed to a
width below `1e-6` and `iv` is that bracket's midpoint — and in that case
the price mismatch can be arbitrarily large (a silently wrong value
reported as converged). -/
theorem impliedVol_converged_spec (price vega expFn sqrtFn : ℚ → ℚ)
    (piQ optionPrice S K T r : ℚ) (isCall : Bool)
    (hconv : (calculateImpliedVolatility price vega expFn sqrtFn piQ optionPrice
      S K T r isCall).converged = true) :
    |price (calculateImpliedVolatility price vega expFn sqrtFn piQ optionPrice
        S K T r isCall).iv - optionPrice| < 1 / 1000000 ∨
      ∃ lo hi, (calculateImpliedVolatility price vega expFn sqrtFn piQ optionPrice
          S K T r isCall).iv = (lo + hi) / 2 ∧
        hi - lo < 1 / 1000000 ∧ 1 / 1000 ≤ lo ∧ lo ≤ hi ∧ hi ≤ 5 := by
  unfold calculateImpliedVolatility at hconv
  by_cases h1 : T ≤ 0 ∨ optionPrice ≤ 0
  · rw [if_pos h1] at hconv
    simp at hconv
  · rw [if_neg h1] at hconv
    by_cases h2 : optionPrice < intrinsicValue expFn S K T r isCall * (99 / 100)
    · rw [if_pos h2] at hconv
      simp at hconv
    · rw [if_neg h2] at hconv
      have heq : calculateImpliedVolatility price vega expFn sqrtFn piQ optionPrice
          S K T r isCall =
          nrLoop price vega optionPrice
            (max (1 / 100) (min (sqrtFn (2 * piQ / T) * optionPrice / S) 5)) 100 0 := by
        unfold calculateImpliedVolatility
        rw [if_neg h1, if_neg h2]
      rw [heq]
      exact nrLoop_converged price vega optionPrice 100 0 _ hconv

/-- The concrete pricing oracle of the C2 counterexample: increasing in
volatility and bounded above by the spot `S = 100`, like the Black-Scholes
call price itself; the quoted market price `200` therefore exceeds every
attainable model price. -/
def priceCEx : ℚ → ℚ := fun sigma => 100 * sigma / (sigma + 1)

/-- The stuck Newton-Raphson iteration of the counterexample: from `σ = 10`
every update clamps back to `10`, so the loop burns all its iterations and
falls back to bisection. -/
theorem nrLoop_priceCEx_stuck : ∀ (fuel i : ℕ),
    nrLoop priceCEx (fun _ => 1) 200 10 fuel i = bisectionIV priceCEx 200 := by
  intro fuel
  induction fuel with
  | zero => intro i; rfl
  | succ fuel ih =>
    intro i
    rw [nrLoop_succ]
    dsimp only
    have hc1 : ¬ |priceCEx 10 - 200| < 1 / 10000000 := by
      rw [abs_sub_lt_iff]
      push_neg
      intro _
      norm_num [priceCEx]
    have hc2 : ¬ |(1 : ℚ)| < 1 / 10000000000 := by
      rw [abs_one]
      norm_num
    rw [if_neg hc1, if_neg hc2]
    have harg : max (1 / 1000 : ℚ) (min (10 - (priceCEx 10 - 200) / 1) 10) = 10 := by
      norm_num [priceCEx]
    rw [harg, ih]

/-- With the market price out of reach, the bisection bracket only ever moves
its lower end upward; once the width bound allows the collapse within the
available fuel, the loop reports `converged = true` with `iv` close to the
upper bracket end `5`. -/
theorem bisectLoop_priceCEx_collapse : ∀ (fuel : ℕ) (i : ℕ) (lo : ℚ),
    1 / 1000 ≤ lo → lo < 5 → 2 * 1000000 * (5 - lo) < 2 ^ fuel → 1 ≤ fuel →
    (bisectLoop priceCEx 200 lo 5 fuel i).converged = true ∧
      4 ≤ (bisectLoop priceCEx 200 lo 5 fuel i).iv ∧
      (bisectLoop priceCEx 200 lo 5 fuel i).iv < 5 := by
  intro fuel
  induction fuel with
  | zero => intro i lo _ _ _ hf; exact absurd hf (by norm_num)
  | succ fuel ih =>
    intro i lo hlo hlt hw _
    rw [bisectLoop_succ]
    dsimp only
    have hprice_lt : priceCEx ((lo + 5) / 2) < 100 := by
      rw [priceCEx]
      rw [div_lt_iff₀ (by linarith)]
      linarith
    have hprice_pos : 0 ≤ priceCEx ((lo + 5) / 2) := by
      rw [priceCEx]
      positivity
    by_cases hwidth : (5 : ℚ) - lo < 1 / 1000000
    · rw [if_pos (Or.inr hwidth)]
      refine ⟨rfl, ?_, ?_⟩ <;> dsimp only <;> linarith
    · have hdiffbig : ¬ |priceCEx ((lo + 5) / 2) - 200| < 1 / 1000000 := by
        rw [abs_sub_lt_iff]
        push_neg
        intro _
        linarith
      have hcondneg : ¬(|priceCEx ((lo + 5) / 2) - 200| < 1 / 1000000 ∨
          (5 : ℚ) - lo < 1 / 1000000) := by
        push_neg
        exact ⟨le_of_not_lt hdiffbig, le_of_not_lt hwidth⟩
      rw [if_neg hcondneg]
      have hno : ¬(0 < priceCEx ((lo + 5) / 2) - 200) := by linarith
      rw [if_neg hno]
      cases fuel with
      | zero =>
        norm_num at hw
        exact absurd (by linarith : (5 : ℚ) - lo < 1 / 1000000) hwidth
      | succ f =>
        refine ih (i + 1) ((lo + 5) / 2) (by linarith) (by linarith) ?_ (by omega)
        have h2 : (2 : ℚ) ^ (f + 1 + 1) = 2 * 2 ^ (f + 1) := by ring
        rw [h2] at hw
        have hp : (0 : ℚ) < 2 ^ (f + 1) := by positivity
        linarith

/-- **C2 (counterexample).** A full run of `calculateImpliedVolatility` that
passes every input check (`T = 1 > 0`, market price `200 > 0`, intrinsic
value `0`), with a pricing oracle bounded above by `100`: Newton-Raphson
saturates at the `σ = 10` clamp, the bisection fallback collapses its
bracket, and the solver reports `converged = true` although the model price
at the returned `iv` misses the market price by more than `100` — far beyond
the `1e-6`/`1e-7` precision the claim asserts. -/
theorem impliedVol_converged_wrong :
    (calculateImpliedVolatility priceCEx (fun _ => 1) (fun _ => 1) (fun _ => 5 / 2)
        (157 / 50) 200 100 100 1 0 true).converged = true ∧
      1 / 1000000 ≤
        |priceCEx (calculateImpliedVolatility priceCEx (fun _ => 1) (fun _ => 1)
          (fun _ => 5 / 2) (157 / 50) 200 100 100 1 0 true).iv - 200| := by
  have hstart : calculateImpliedVolatility priceCEx (fun _ => 1) (fun _ => 1)
      (fun _ => 5 / 2) (157 / 50) 200 100 100 1 0 true =
      nrLoop priceCEx (fun _ => 1) 200 5 100 0 := by
    unfold calculateImpliedVolatility
    rw [if_neg (by norm_num)]
    rw [if_neg (by norm_num [intrinsicValue])]
    norm_num
  have hstep1 : nrLoop priceCEx (fun _ => 1) 200 5 100 0 =
      nrLoop priceCEx (fun _ => 1) 200 10 99 1 := by
    rw [show (100 : ℕ) = 99 + 1 from rfl, nrLoop_succ]
    dsimp only
    have hc1 : ¬ |priceCEx 5 - 200| < 1 / 10000000 := by
      rw [abs_sub_lt_iff]
      push_neg
      intro _
      norm_num [priceCEx]
    have hc2 : ¬ |(1 : ℚ)| < 1 / 10000000000 := by
      rw [abs_one]
      norm_num
    rw [if_neg hc1, if_neg hc2]
    have harg : max (1 / 1000 : ℚ) (min (5 - (priceCEx 5 - 200) / 1) 10) = 10 := by
      norm_num [priceCEx]
    rw [harg]
  have hbis : calculateImpliedVolatility priceCEx (fun _ => 1) (fun _ => 1)
      (fun _ => 5 / 2) (157 / 50) 200 100 100 1 0 true =
      bisectLoop priceCEx 200 (1 / 1000) 5 100 0 := by
    rw [hstart, hstep1, nrLoop_priceCEx_stuck]
    rfl
  obtain ⟨hconv, hge, hlt⟩ := bisectLoop_priceCEx_collapse 100 0 (1 / 1000)
    le_rfl (by norm_num) (by norm_num) (by norm_num)
  rw [hbis]
  refine ⟨hconv, ?_⟩
  have hpb : priceCEx (bisectLoop priceCEx 200 (1 / 1000) 5 100 0).iv < 100 := by
    rw [priceCEx]
    rw [div_lt_iff₀ (by linarith)]
    linarith
  have habs : 100 ≤ |priceCEx (bisectLoop priceCEx 200 (1 / 1000) 5 100 0).iv - 200| := by
    rw [abs_sub_comm, abs_of_pos (by linarith)]
    linarith
  linarith

theorem impliedVol_converged_spec_witness :
    |(fun _ => (200 : ℚ)) (calculateImpliedVolatility (fun _ => 200) (fun _ => 1)
        (fun _ => 1) (fun _ => 5 / 2) (157 / 50) 200 100 100 1 0 true).iv - 200| <
      1 / 1000000 ∨
    ∃ lo hi, (calculateImpliedVolatility (fun _ => 200) (fun _ => 1) (fun _ => 1)
        (fun _ => 5 / 2) (157 / 50) 200 100 100 1 0 true).iv = (lo + hi) / 2 ∧
      hi - lo < 1 / 1000000 ∧ 1 / 1000 ≤ lo ∧ lo ≤ hi ∧ hi ≤ 5 := by
  refine impliedVol_converged_spec (fun _ => 200) (fun _ => 1) (fun _ => 1)
    (fun _ => 5 / 2) (157 / 50) 200 100 100 1 0 true ?_
  have hstart : calculateImpliedVolatility (fun _ => 200) (fun _ => 1) (fun _ => 1)
      (fun _ => 5 / 2) (157 / 50) 200 100 100 1 0 true =
      nrLoop (fun _ => 200) (fun _ => 1) 200 5 100 0 := by
    unfold calculateImpliedVolatility
    rw [if_neg (by norm_num)]
    rw [if_neg (by norm_num [intrinsicValue])]
    norm_num
  rw [hstart]
  rw [show (100 : ℕ) = 99 + 1 from rfl, nrLoop_succ]
  dsimp only
  rw [if_pos (by norm_num)]

end ClaimC2

section ClaimC5

/-- The boundary branch of `calculateBlackScholes` for `sigma ≤ 0 < T`:
intrinsic value. -/
theorem calculateBlackScholes_zero_sigma (erfFn : ℝ → ℝ)
    (inp : BlackScholesInputs) (type : OptionType) (hT : ¬ inp.T ≤ 0)
    (hs : inp.sigma ≤ 0) :
    (calculateBlackScholes erfFn inp type).price =
      max 0 (if type = OptionType.call then inp.S - inp.K else inp.K - inp.S) := by
  simp only [calculateBlackScholes, if_neg hT, if_pos hs]

/-- **C5 (amended).** For every valid input with `T > 0` and `sigma > 0` (and
any odd `erf` implementation, as the `mathjs` approximation is),
`calculateBlackScholes` satisfies put-call parity exactly:
`call − put = S − K·exp(−r·T)`.  (At `sigma = 0`, which the claim also
admits, the boundary branch breaks parity whenever `r·T ≠ 0` — see the
counterexample.) -/
theorem putCallParity (erfFn : ℝ → ℝ) (inp : BlackScholesInputs)
    (hodd : ∀ x, erfFn (-x) = -erfFn x) (hT : 0 < inp.T) (hs : 0 < inp.sigma) :
    (calculateBlackScholes erfFn inp OptionType.call).price -
      (calculateBlackScholes erfFn inp OptionType.put).price =
    inp.S - inp.K * Real.exp (-inp.r * inp.T) := by
  have hT' : ¬ inp.T ≤ 0 := not_le.mpr hT
  have hs' : ¬ inp.sigma ≤ 0 := not_le.mpr hs
  have hsum : ∀ x : ℝ, bsCdf erfFn x + bsCdf erfFn (-x) = 1 := by
    intro x
    unfold bsCdf
    rw [neg_div, hodd]
    ring
  simp only [calculateBlackScholes, if_neg hT', if_neg hs']
  have h1 := hsum ((Real.log (inp.S / inp.K) +
    (inp.r + 0.5 * inp.sigma * inp.sigma) * inp.T) / (inp.sigma * Real.sqrt inp.T))
  have h2 := hsum ((Real.log (inp.S / inp.K) +
    (inp.r + 0.5 * inp.sigma * inp.sigma) * inp.T) / (inp.sigma * Real.sqrt inp.T) -
    inp.sigma * Real.sqrt inp.T)
  linear_combination inp.S * h1 - inp.K * Real.exp (-inp.r * inp.T) * h2

/-- **C5 (counterexample).** At `S = 100`, `K = 50`, `T = 1`, `r = 1`,
`sigma = 0` — a valid input under the claim's `sigma ≥ 0` — the boundary
branch prices the call at `50` and the put at `0`, while
`S − K·exp(−r·T) = 100 − 50·e⁻¹ ≈ 81.6`; the parity defect exceeds `1`,
far outside any floating tolerance. -/
theorem putCallParity_fails_at_zero_sigma :
    ¬ |(calculateBlackScholes (fun _ => 0) ⟨100, 50, 1, 1, 0⟩ OptionType.call).price -
        (calculateBlackScholes (fun _ => 0) ⟨100, 50, 1, 1, 0⟩ OptionType.put).price -
        (100 - 50 * Real.exp (-(1 : ℝ) * 1))| < 1 := by
  have hcall : (calculateBlackScholes (fun _ => 0) ⟨100, 50, 1, 1, 0⟩
      OptionType.call).price = 50 := by
    rw [calculateBlackScholes_zero_sigma _ _ _ (by norm_num) (by norm_num)]
    rw [if_pos rfl, max_eq_right (by norm_num : (0 : ℝ) ≤ 100 - 50)]
    norm_num
  have hput : (calculateBlackScholes (fun _ => 0) ⟨100, 50, 1, 1, 0⟩
      OptionType.put).price = 0 := by
    rw [calculateBlackScholes_zero_sigma _ _ _ (by norm_num) (by norm_num)]
    rw [if_neg (by decide : ¬(OptionType.put = OptionType.call))]
    exact max_eq_left (by norm_num : (50 : ℝ) - 100 ≤ 0)
  rw [hcall, hput]
  rw [show (-(1 : ℝ) * 1) = -1 by norm_num]
  have he : Real.exp (-1 : ℝ) ≤ 1 / 2 := by
    rw [Real.exp_neg]
    have h2 : (2 : ℝ) ≤ Real.exp 1 := by
      have := Real.add_one_le_exp (1 : ℝ)
      linarith
    have h3 := inv_anti₀ (by norm_num : (0 : ℝ) < 2) h2
    rw [show ((2 : ℝ))⁻¹ = 1 / 2 by norm_num] at h3
    exact h3
  have hepos : (0 : ℝ) < Real.exp (-1 : ℝ) := Real.exp_pos _
  have hrw : (50 : ℝ) - 0 - (100 - 50 * Real.exp (-1 : ℝ)) =
      50 * Real.exp (-1 : ℝ) - 50 := by ring
  rw [hrw, abs_of_neg (by linarith), not_lt]
  linarith

/-- **C5 (witness).** Parity at the at-the-money input
`S = K = 1, T = 1, r = 0, sigma = 1` with the odd zero `erf` oracle. -/
theorem putCallParity_witness :
    (0 : ℝ) < (1 : ℝ) ∧
      ((calculateBlackScholes (fun _ => 0) ⟨1, 1, 1, 0, 1⟩ OptionType.call).price -
        (calculateBlackScholes (fun _ => 0) ⟨1, 1, 1, 0, 1⟩ OptionType.put).price =
        1 - 1 * Real.exp (-(0 : ℝ) * 1)) :=
  ⟨by norm_num,
    putCallParity (fun _ => 0) ⟨1, 1, 1, 0, 1⟩ (fun x => by simp) (by norm_num)
      (by norm_num)⟩

end ClaimC5

section ClaimC9

/-- Positivity is preserved along a GBM path: every stored point and the
running price stay positive when the exponential oracle is positive. -/
theorem mcPath_pos (expFn : ℚ → ℚ) (shock : ℕ → ℚ) (p0 drift volSqDt : ℚ)
    (steps : ℕ) (hexp : ∀ x, 0 < expFn x) (h0 : 0 < p0) :
    (∀ pt ∈ (mcPath expFn shock p0 drift volSqDt steps).1, 0 < pt.2) ∧
      0 < (mcPath expFn shock p0 drift volSqDt steps).2 := by
  unfold mcPath
  have hgen : ∀ (l : List ℕ) (acc : List (ℕ × ℚ) × ℚ),
      (∀ pt ∈ acc.1, 0 < pt.2) → 0 < acc.2 →
      (∀ pt ∈ (l.foldl (fun acc t =>
          (acc.1 ++ [(t, acc.2 * expFn (drift + volSqDt * shock t))],
            acc.2 * expFn (drift + volSqDt * shock t))) acc).1, 0 < pt.2) ∧
        0 < (l.foldl (fun acc t =>
          (acc.1 ++ [(t, acc.2 * expFn (drift + volSqDt * shock t))],
            acc.2 * expFn (drift + volSqDt * shock t))) acc).2 := by
    intro l
    induction l with
    | nil => intro acc h1 h2; exact ⟨h1, h2⟩
    | cons t rest ih =>
      intro acc h1 h2
      refine ih _ ?_ (mul_pos h2 (hexp _))
      intro pt hpt
      rcases List.mem_append.mp hpt with h | h
      · exact h1 pt h
      · rcases List.mem_singleton.mp h with rfl
        exact mul_pos h2 (hexp _)
  refine hgen _ ([(0, p0)], p0) ?_ h0
  intro pt hpt
  rcases List.mem_singleton.mp hpt with rfl
  exact h0

/-- **C9 (amended).** For every simulation input with a positive initial
price, at least one time step and **at least one simulated path**
(`numSimulations ≥ 1`, which the claim omits), every price on every returned
path is strictly positive, every terminal price is strictly positive, and
the reported mean, median, min and max are all defined and strictly
positive. -/
theorem monteCarlo_positive (expFn sqrtFn : ℚ → ℚ) (shocks : ℕ → ℕ → ℚ)
    (inp : SimulationInputs) (hexp : ∀ x, 0 < expFn x)
    (hS : 0 < inp.initialPrice) (hsteps : 1 ≤ inp.timeSteps)
    (hN : 1 ≤ inp.numSimulations) :
    (∀ path ∈ (runMonteCarloSimulation expFn sqrtFn shocks inp).paths,
      ∀ pt ∈ path, 0 < pt.2) ∧
    (∀ p ∈ (runMonteCarloSimulation expFn sqrtFn shocks inp).finalPrices, 0 < p) ∧
    (∃ v, (runMonteCarloSimulation expFn sqrtFn shocks inp).stats.mean = some v ∧ 0 < v) ∧
    (∃ v, (runMonteCarloSimulation expFn sqrtFn shocks inp).stats.median = some v ∧ 0 < v) ∧
    (∃ v, (runMonteCarloSimulation expFn sqrtFn shocks inp).stats.min = some v ∧ 0 < v) ∧
    (∃ v, (runMonteCarloSimulation expFn sqrtFn shocks inp).stats.max = some v ∧ 0 < v) := by
  set dt := inp.timeHorizon / inp.timeSteps with hdt
  set drift := (inp.expectedReturn - 0.5 * inp.volatility * inp.volatility) * dt with hdrift
  set volSqDt := inp.volatility * sqrtFn dt with hvol
  set runs := (List.range inp.numSimulations).map (fun i =>
    mcPath expFn (shocks i) inp.initialPrice drift volSqDt inp.timeSteps) with hruns
  have hpaths : (runMonteCarloSimulation expFn sqrtFn shocks inp).paths =
      runs.map (·.1) := rfl
  have hfp : (runMonteCarloSimulation expFn sqrtFn shocks inp).finalPrices =
      (runs.map (·.2)).mergeSort (fun a b => a ≤ b) := rfl
  have hsortedperm := List.mergeSort_perm (runs.map (·.2)) (fun a b => a ≤ b)
  have hfinpos : ∀ p ∈ (runs.map (·.2)).mergeSort (fun a b => a ≤ b), 0 < p := by
    intro p hp
    have hp' := hsortedperm.mem_iff.mp hp
    obtain ⟨run, hrun, rfl⟩ := List.mem_map.mp hp'
    obtain ⟨i, _, rfl⟩ := List.mem_map.mp hrun
    exact (mcPath_pos expFn (shocks i) inp.initialPrice drift volSqDt
      inp.timeSteps hexp hS).2
  have hlen : ((runs.map (·.2)).mergeSort (fun a b => a ≤ b)).length =
      inp.numSimulations := by
    rw [hsortedperm.length_eq]
    simp [hruns]
  have hget : ∀ k, k < inp.numSimulations →
      ∃ v, ((runs.map (·.2)).mergeSort (fun a b => a ≤ b)).get? k = some v ∧ 0 < v := by
    intro k hk
    have hk' : k < ((runs.map (·.2)).mergeSort (fun a b => a ≤ b)).length := by
      rw [hlen]; exact hk
    refine ⟨((runs.map (·.2)).mergeSort (fun a b => a ≤ b)).get ⟨k, hk'⟩,
      List.get?_eq_get hk', hfinpos _ (List.get_mem _ _ _)⟩
  refine ⟨?_, ?_, ?_, ?_, ?_, ?_⟩
  · rw [hpaths]
    intro path hpath pt hpt
    obtain ⟨run, hrun, rfl⟩ := List.mem_map.mp hpath
    obtain ⟨i, _, rfl⟩ := List.mem_map.mp hrun
    exact (mcPath_pos expFn (shocks i) inp.initialPrice drift volSqDt
      inp.timeSteps hexp hS).1 pt hpt
  · rw [hfp]; exact hfinpos
  · have hmean : (runMonteCarloSimulation expFn sqrtFn shocks inp).stats.mean =
        jsDiv ((runs.map (·.2)).mergeSort (fun a b => a ≤ b)).sum
          inp.numSimulations := rfl
    rw [hmean]
    have hne : ((runs.map (·.2)).mergeSort (fun a b => a ≤ b)) ≠ [] := by
      intro hcon
      rw [hcon] at hlen
      simp at hlen
      omega
    have hsumpos : 0 < ((runs.map (·.2)).mergeSort (fun a b => a ≤ b)).sum :=
      List.sum_pos _ hfinpos hne
    have hn0 : ((inp.numSimulations : ℚ)) ≠ 0 := by
      have : (0 : ℚ) < inp.numSimulations := by exact_mod_cast hN
      linarith
    refine ⟨((runs.map (·.2)).mergeSort (fun a b => a ≤ b)).sum / inp.numSimulations,
      ?_, ?_⟩
    · simp [jsDiv, hn0]
    · have : (0 : ℚ) < inp.numSimulations := by exact_mod_cast hN
      positivity
  · exact hget (inp.numSimulations / 2) (Nat.div_lt_self (by omega) (by norm_num))
  · exact hget 0 (by omega)
  · exact hget (inp.numSimulations - 1) (by omega)

/-- **C9 (counterexample).** With `initialPrice = 1 > 0` and `timeSteps = 1`
but `numSimulations = 0` — allowed by the claim — the terminal-price array is
empty and the reported minimum is `undefined` (`none`), not a strictly
positive number. -/
theorem monteCarlo_zero_sims_min_undefined :
    (runMonteCarloSimulation (fun _ => 1) (fun _ => 1) (fun _ _ => 0)
      { initialPrice := 1, expectedReturn := 0, volatility := 0,
        timeHorizon := 1, timeSteps := 1, numSimulations := 0 }).stats.min = none := by
  simp [runMonteCarloSimulation, List.mergeSort_nil]

/-- **C9 (witness).** The amended claim at a one-path, one-step simulation. -/
theorem monteCarlo_positive_witness :
    (0 : ℚ) < 1 ∧ (1 : ℕ) ≤ 1 ∧
      (∃ v, (runMonteCarloSimulation (fun _ => 1) (fun _ => 1) (fun _ _ => 0)
        { initialPrice := 1, expectedReturn := 0, volatility := 0,
          timeHorizon := 1, timeSteps := 1, numSimulations := 1 }).stats.mean
          = some v ∧ 0 < v) :=
  ⟨by norm_num, le_refl 1,
    (monteCarlo_positive (fun _ => 1) (fun _ => 1) (fun _ _ => 0)
      { initialPrice := 1, expectedReturn := 0, volatility := 0,
        timeHorizon := 1, timeSteps := 1, numSimulations := 1 }
      (fun x => by norm_num) (by norm_num) (le_refl 1) (le_refl 1)).2.2.1⟩

end ClaimC9

section ClaimC10

/-- Membership in an append-accumulating fold comes from the seed or from
one of the per-item generators. -/
theorem mem_foldl_append {α β : Type} (g : α → List β) :
    ∀ (l : List α) (init : List β) (b : β),
    b ∈ l.foldl (fun acc x => acc ++ g x) init → b ∈ init ∨ ∃ x ∈ l, b ∈ g x := by
  intro l
  induction l with
  | nil => intro init b hb; exact Or.inl hb
  | cons x xs ih =>
    intro init b hb
    rcases ih (init ++ g x) b hb with h | ⟨y, hy, hby⟩
    · rcases List.mem_append.mp h with h | h
      · exact Or.inl h
      · exact Or.inr ⟨x, List.mem_cons_self x xs, h⟩
    · exact Or.inr ⟨y, List.mem_cons_of_mem x hy, hby⟩

/-- Every butterfly-phase opportunity has type `butterfly`. -/
theorem butterflyOpps_type (groups : List (String × List SurfacePoint)) :
    ∀ o ∈ butterflyOpps groups, o.type = ArbType.butterfly := by
  intro o ho
  rcases mem_foldl_append _ groups [] o ho with h | ⟨g, _, hg⟩
  · simp at h
  · rcases mem_foldl_append _ _ [] o hg with h | ⟨tr, _, htr⟩
    · simp at h
    · unfold butterflyOppsOfTriple at htr
      split at htr
      · split at htr
        · dsimp only at htr
          split at htr
          · rcases List.mem_singleton.mp htr with rfl; rfl
          · simp at htr
        · simp at htr
      · simp at htr

/-- Every calendar-phase opportunity has type `calendar`. -/
theorem calendarOpps_type (groups : List (String × List SurfacePoint)) :
    ∀ o ∈ calendarOpps groups, o.type = ArbType.calendar := by
  intro o ho
  rcases mem_foldl_append _ _ [] o ho with h | ⟨pr, _, hpr⟩
  · simp at h
  · unfold calendarOppsOfPair at hpr
    rcases mem_foldl_append _ _ [] o hpr with h | ⟨fp, _, hfp⟩
    · simp at h
    · unfold calendarOppsOfPoint at hfp
      split at hfp
      · simp at hfp
      · split at hfp
        · split at hfp
          · dsimp only at hfp
            rcases List.mem_singleton.mp hfp with rfl
            rfl
          · simp at hfp
        · simp at hfp

/-- Every put-call-phase opportunity has type `put_call`. -/
theorem putCallOpps_type (points : List SurfacePoint) :
    ∀ o ∈ putCallOpps points, o.type = ArbType.put_call := by
  intro o ho
  rcases mem_foldl_append _ _ [] o ho with h | ⟨pt, _, hpt⟩
  · simp at h
  · unfold putCallOppsOfPoint at hpt
    split at hpt
    · split at hpt
      · dsimp only at hpt
        split at hpt
        · rcases List.mem_singleton.mp hpt with rfl; rfl
        · simp at hpt
      · simp at hpt
    · simp at hpt

/-- A list whose elements are all butterfly, calendar or put-call splits its
length over the three type filters. -/
theorem length_eq_filter_counts :
    ∀ (l : List ArbitrageOpportunity),
    (∀ o ∈ l, o.type = ArbType.butterfly ∨ o.type = ArbType.calendar ∨
      o.type = ArbType.put_call) →
    l.length = (l.filter fun o => decide (o.type = ArbType.butterfly)).length +
      (l.filter fun o => decide (o.type = ArbType.calendar)).length +
      (l.filter fun o => decide (o.type = ArbType.put_call)).length := by
  intro l
  induction l with
  | nil => intro _; simp
  | cons o rest ih =>
    intro h
    have hrest := ih fun x hx => h x (List.mem_cons_of_mem o hx)
    rcases h o (List.mem_cons_self o rest) with ho | ho | ho <;>
      simp [List.filter_cons, ho, List.length_cons, hrest] <;> omega

/-- **C10.** `scanForArbitrage` produces only butterfly, calendar and
put-call opportunities (never `vertical`), and `totalCount` equals
`butterflyCount + calendarCount + putCallCount`, which equals the length of
the opportunities list. -/
theorem scanForArbitrage_types_and_counts (points : List SurfacePoint)
    (spotPrice : ℚ) :
    (∀ o ∈ (scanForArbitrage points spotPrice).opportunities,
      o.type = ArbType.butterfly ∨ o.type = ArbType.calendar ∨
        o.type = ArbType.put_call) ∧
    (scanForArbitrage points spotPrice).totalCount =
      (scanForArbitrage points spotPrice).butterflyCount +
        (scanForArbitrage points spotPrice).calendarCount +
        (scanForArbitrage points spotPrice).putCallCount ∧
    (scanForArbitrage points spotPrice).totalCount =
      (scanForArbitrage points spotPrice).opportunities.length := by
  have hops : (scanForArbitrage points spotPrice).opportunities =
      (butterflyOpps (groupByExpiryStr points) ++ calendarOpps (groupByExpiryStr points) ++
        putCallOpps points).mergeSort
        (fun a b => severityOrder a.severity ≤ severityOrder b.severity) := rfl
  have hperm := List.mergeSort_perm
    (butterflyOpps (groupByExpiryStr points) ++ calendarOpps (groupByExpiryStr points) ++
      putCallOpps points)
    (fun a b => severityOrder a.severity ≤ severityOrder b.severity)
  have htypes : ∀ o ∈ (scanForArbitrage points spotPrice).opportunities,
      o.type = ArbType.butterfly ∨ o.type = ArbType.calendar ∨
        o.type = ArbType.put_call := by
    intro o ho
    rw [hops] at ho
    have := hperm.mem_iff.mp ho
    rcases List.mem_append.mp this with h | h
    · rcases List.mem_append.mp h with h2 | h2
      · exact Or.inl (butterflyOpps_type _ o h2)
      · exact Or.inr (Or.inl (calendarOpps_type _ o h2))
    · exact Or.inr (Or.inr (putCallOpps_type _ o h))
  refine ⟨htypes, ?_, rfl⟩
  have hcounts : (scanForArbitrage points spotPrice).butterflyCount =
        ((scanForArbitrage points spotPrice).opportunities.filter
          fun o => decide (o.type = ArbType.butterfly)).length ∧
      (scanForArbitrage points spotPrice).calendarCount =
        ((scanForArbitrage points spotPrice).opportunities.filter
          fun o => decide (o.type = ArbType.calendar)).length ∧
      (scanForArbitrage points spotPrice).putCallCount =
        ((scanForArbitrage points spotPrice).opportunities.filter
          fun o => decide (o.type = ArbType.put_call)).length := ⟨rfl, rfl, rfl⟩
  rw [hcounts.1, hcounts.2.1, hcounts.2.2]
  exact length_eq_filter_counts _ htypes

/-- The one-point surface of the C10 witness (a put-call violation:
`callIV = 0.5`, `putIV = 0.4`). -/
def surfacePointExampleC10 : SurfacePoint :=
  { strike := 100, expiry := "e", daysToExpiry := 30
    moneyness := 0, callIV := some (1/2), putIV := some (2/5)
    callPrice := 0, putPrice := 0, callBid := 0, callAsk := 0, putBid := 0
    putAsk := 0, callVolume := 0, putVolume := 0, callOI := 0, putOI := 0
    callDelta := none, putDelta := none, gamma := none, vega := none }

/-- **C10 (witness).** The count identity at a one-point surface exhibiting a
put-call violation. -/
theorem scanForArbitrage_types_and_counts_witness :
    (scanForArbitrage [surfacePointExampleC10] 100).totalCount =
      (scanForArbitrage [surfacePointExampleC10] 100).butterflyCount +
        (scanForArbitrage [surfacePointExampleC10] 100).calendarCount +
        (scanForArbitrage [surfacePointExampleC10] 100).putCallCount :=
  (scanForArbitrage_types_and_counts [surfacePointExampleC10] 100).2.1

end ClaimC10

section ClaimC8

/-- Setting a key makes it retrievable. -/
theorem mapGet_mapSet_self {κ β : Type} [DecidableEq κ] :
    ∀ (m : List (κ × β)) (k : κ) (v : β), mapGet (mapSet m k v) k = some v := by
  intro m
  induction m with
  | nil => intro k v; simp [mapSet, mapGet]
  | cons p rest ih =>
    intro k v
    unfold mapSet
    split
    · simp [mapGet]
    · unfold mapGet
      rw [if_neg (by assumption)]
      exact ih k v

/-- Setting one key leaves every other key's binding unchanged. -/
theorem mapGet_mapSet_ne {κ β : Type} [DecidableEq κ] :
    ∀ (m : List (κ × β)) (k k' : κ) (v : β), k' ≠ k →
    mapGet (mapSet m k v) k' = mapGet m k' := by
  intro m
  induction m with
  | nil =>
    intro k k' v hne
    simp [mapSet, mapGet, if_neg (fun h : k = k' => hne h.symm)]
  | cons p rest ih =>
    intro k k' v hne
    unfold mapSet
    split
    next heq =>
      unfold mapGet
      rw [if_neg (fun h : k = k' => hne h.symm), if_neg (by rw [heq]; exact fun h => hne h.symm)]
    next =>
      unfold mapGet
      split
      · rfl
      · exact ih k k' v hne

/-- A `mapGet` hit names an entry of the association list. -/
theorem mapGet_mem {κ β : Type} [DecidableEq κ] :
    ∀ (m : List (κ × β)) (k : κ) (v : β), mapGet m k = some v → (k, v) ∈ m := by
  intro m
  induction m with
  | nil => intro k v h; simp [mapGet] at h
  | cons p rest ih =>
    intro k v h
    unfold mapGet at h
    split at h
    next heq =>
      rcases Option.some_injective _ h with rfl
      rcases p with ⟨pk, pv⟩
      rcases heq
      exact List.mem_cons_self _ _
    next => exact List.mem_cons_of_mem p (ih k v h)

/-- A key of `mapSet m k v` is a key of `m` or `k` itself. -/
theorem mem_keys_mapSet {κ β : Type} [DecidableEq κ] :
    ∀ (m : List (κ × β)) (k k' : κ) (v : β),
    k' ∈ (mapSet m k v).map Prod.fst → k' ∈ m.map Prod.fst ∨ k' = k := by
  intro m
  induction m with
  | nil => intro k k' v h; simp [mapSet] at h; exact Or.inr h
  | cons p rest ih =>
    intro k k' v h
    unfold mapSet at h
    split at h
    next heq =>
      rcases List.mem_map.mp h with ⟨q, hq, rfl⟩
      rcases List.mem_cons.mp hq with rfl | hq2
      · exact Or.inr rfl
      · exact Or.inl (List.mem_map_of_mem Prod.fst (List.mem_cons_of_mem p hq2))
    next =>
      rcases List.mem_map.mp h with ⟨q, hq, rfl⟩
      rcases List.mem_cons.mp hq with rfl | hq2
      · exact Or.inl (List.mem_map_of_mem Prod.fst (List.mem_cons_self _ _))
      · rcases ih k q.1 v (List.mem_map_of_mem Prod.fst hq2) with h2 | h2
        · rcases List.mem_map.mp h2 with ⟨q2, hq2m, hfst⟩
          exact Or.inl (hfst ▸ List.mem_map_of_mem Prod.fst (List.mem_cons_of_mem p hq2m))
        · exact Or.inr h2

/-- `mapSet` preserves distinctness of keys. -/
theorem keysNodup_mapSet {κ β : Type} [DecidableEq κ] :
    ∀ (m : List (κ × β)) (k : κ) (v : β),
    (m.map Prod.fst).Nodup → ((mapSet m k v).map Prod.fst).Nodup := by
  intro m
  induction m with
  | nil => intro k v _; simp [mapSet]
  | cons p rest ih =>
    intro k v hnd
    rw [List.map_cons, List.nodup_cons] at hnd
    unfold mapSet
    split
    next heq =>
      rw [List.map_cons, List.nodup_cons]
      exact ⟨by rw [← heq]; exact hnd.1, hnd.2⟩
    next hne =>
      rw [List.map_cons, List.nodup_cons]
      refine ⟨?_, ih k v hnd.2⟩
      intro hcon
      rcases mem_keys_mapSet rest k p.1 v hcon with h | h
      · exact hnd.1 h
      · exact hne h

/-- `groupByExpiry` produces distinct expiry keys. -/
theorem groupByExpiry_keys_nodup (pts : List SurfacePoint) :
    ((groupByExpiry pts).map Prod.fst).Nodup := by
  unfold groupByExpiry
  have hgen : ∀ (l : List SurfacePoint) (m : List (ℚ × List SurfacePoint)),
      (m.map Prod.fst).Nodup →
      ((l.foldl (fun m p =>
        mapSet m p.daysToExpiry ((mapGet m p.daysToExpiry).getD [] ++ [p])) m).map
          Prod.fst).Nodup := by
    intro l
    induction l with
    | nil => intro m hm; exact hm
    | cons p rest ih => intro m hm; exact ih _ (keysNodup_mapSet m _ _ hm)
  exact hgen pts [] (by simp)


/-- Folding the acceptance step over groups whose keys avoid `d` does not
change the binding of `d`. -/
theorem buildSviFits_preserves (sqrtFn : ℚ → ℚ) :
    ∀ (groups : List (ℚ × List SurfacePoint)) (m : List (ℚ × SVIFitResult)) (d : ℚ),
    d ∉ groups.map Prod.fst →
    mapGet (groups.foldl (fun m g =>
      let fitData := sviFitData g.2
      if 4 ≤ fitData.length then
        match fitSVISlice sqrtFn fitData (g.1 / 365) with
        | some fit => if zGt fit.r2 (3 / 10) then mapSet m g.1 fit else m
        | none => m
      else m) m) d = mapGet m d := by
  intro groups
  induction groups with
  | nil => intro m d _; rfl
  | cons g rest ih =>
    intro m d hd
    rw [List.map_cons] at hd
    have hne : d ≠ g.1 := fun h => hd (by rw [h]; exact List.mem_cons_self _ _)
    have hdrest : d ∉ rest.map Prod.fst := fun h => hd (List.mem_cons_of_mem _ h)
    rw [List.foldl_cons, ih _ d hdrest]
    dsimp only
    split
    · split
      · split
        · exact mapGet_mapSet_ne m g.1 d _ hne
        · rfl
      · rfl
    · rfl

/-- Characterization of the fold's binding at a grouped expiry key `d`: with
distinct group keys, the `sviFits` fold binds `d` to the group's slice fit
exactly when the group's fit data has at least 5 points (so that the step's
`≥ 4` guard passes and `fitSVISlice` succeeds) and the fit passes the
`r2 > 0.3` gate; otherwise the seed's binding at `d` survives. -/
theorem buildSviFits_lookup (sqrtFn : ℚ → ℚ) :
    ∀ (groups : List (ℚ × List SurfacePoint)) (m : List (ℚ × SVIFitResult))
      (d : ℚ) (gpts : List SurfacePoint),
    (groups.map Prod.fst).Nodup → (d, gpts) ∈ groups →
    mapGet (groups.foldl (fun m g =>
      let fitData := sviFitData g.2
      if 4 ≤ fitData.length then
        match fitSVISlice sqrtFn fitData (g.1 / 365) with
        | some fit => if zGt fit.r2 (3 / 10) then mapSet m g.1 fit else m
        | none => m
      else m) m) d =
      (if 5 ≤ (sviFitData gpts).length ∧
          zGt (fitSVIBody sqrtFn (sviFitData gpts) (d / 365)).r2 (3 / 10) = true
        then some (fitSVIBody sqrtFn (sviFitData gpts) (d / 365))
        else mapGet m d) := by
  intro groups
  induction groups with
  | nil => intro m d gpts _ hmem; simp at hmem
  | cons g rest ih =>
    intro m d gpts hnd hmem
    rw [List.map_cons, List.nodup_cons] at hnd
    rcases List.mem_cons.mp hmem with rfl | hmem2
    · rw [List.foldl_cons]
      rw [buildSviFits_preserves sqrtFn rest _ d hnd.1]
      dsimp only
      by_cases h5 : 5 ≤ (sviFitData gpts).length
      · have h4 : 4 ≤ (sviFitData gpts).length := by omega
        have hfs : fitSVISlice sqrtFn (sviFitData gpts) (d / 365) =
            some (fitSVIBody sqrtFn (sviFitData gpts) (d / 365)) := by
          unfold fitSVISlice
          rw [if_neg (by omega)]
        rw [if_pos h4, hfs]
        generalize fitSVIBody sqrtFn (sviFitData gpts) (d / 365) = body
        show mapGet (if zGt body.r2 (3 / 10) then mapSet m d body else m) d =
          (if 5 ≤ (sviFitData gpts).length ∧ zGt body.r2 (3 / 10) = true
            then some body else mapGet m d)
        by_cases hr : zGt body.r2 (3 / 10) = true
        · rw [if_pos hr, if_pos ⟨h5, hr⟩]
          exact mapGet_mapSet_self m d body
        · have hnacc : ¬ (5 ≤ (sviFitData gpts).length ∧ zGt body.r2 (3 / 10) = true) :=
            fun hc => hr hc.2
          rw [if_neg hr, if_neg hnacc]
      · have hnacc : ¬ (5 ≤ (sviFitData gpts).length ∧
            zGt (fitSVIBody sqrtFn (sviFitData gpts) (d / 365)).r2 (3 / 10) = true) :=
          fun hc => h5 hc.1
        rw [if_neg hnacc]
        by_cases h4 : 4 ≤ (sviFitData gpts).length
        · have hfs : fitSVISlice sqrtFn (sviFitData gpts) (d / 365) = none := by
            unfold fitSVISlice
            rw [if_pos (by omega)]
          rw [if_pos h4, hfs]
        · rw [if_neg h4]
    · have hdk : d ∈ rest.map Prod.fst := List.mem_map_of_mem Prod.fst hmem2
      have hgd : g.1 ≠ d := fun h => hnd.1 (h ▸ hdk)
      have hkeep := buildSviFits_preserves sqrtFn [g] m d (by simpa using Ne.symm hgd)
      rw [List.foldl_cons, List.foldl_nil] at hkeep
      rw [List.foldl_cons, ih _ d gpts hnd.2 hmem2, hkeep]

/-- **C8.** `fitSVISlice` returns `null` exactly when given fewer than 5 data
points; and when `generateSVISurface` builds the full surface, an expiry
slice is accepted into the surface — bound in its `sviFits` map — exactly
when the slice's fit data has at least 4 IV observations, `fitSVISlice`
succeeds on it, and the fit passes the goodness-of-fit gate `R² > 0.3`
(a JS comparison, `false` when the degenerate zero-TSS fit stores `NaN` or
the `-∞`-clamp `0`). -/
theorem sviSlice_minPoints_and_acceptance (lnFn sqrtFn : ℚ → ℚ) :
    (∀ (pts : List SVIPoint) (T : ℚ),
      fitSVISlice sqrtFn pts T = none ↔ pts.length < 5) ∧
    ∀ (surfacePoints : List SurfacePoint) (spot : ℚ) (sr er : QRange) (res : ℕ)
      (d : ℚ) (gpts : List SurfacePoint) (fit : SVIFitResult),
      mapGet (groupByExpiry surfacePoints) d = some gpts →
      (mapGet (generateSVISurface lnFn sqrtFn surfacePoints spot sr er res).sviFits d
          = some fit ↔
        4 ≤ (sviFitData gpts).length ∧
          fitSVISlice sqrtFn (sviFitData gpts) (d / 365) = some fit ∧
          zGt fit.r2 (3 / 10) = true) := by
  constructor
  · intro pts T
    unfold fitSVISlice
    split
    next h => simp [h]
    next h => simp [h]
  · intro surfacePoints spot sr er res d gpts fit hget
    have hfits : (generateSVISurface lnFn sqrtFn surfacePoints spot sr er res).sviFits =
        buildSviFits sqrtFn (groupByExpiry surfacePoints) := rfl
    rw [hfits]
    unfold buildSviFits
    rw [buildSviFits_lookup sqrtFn (groupByExpiry surfacePoints) [] d gpts
      (groupByExpiry_keys_nodup surfacePoints) (mapGet_mem _ d gpts hget)]
    simp only [mapGet]
    by_cases hacc : 5 ≤ (sviFitData gpts).length ∧
        zGt (fitSVIBody sqrtFn (sviFitData gpts) (d / 365)).r2 (3 / 10) = true
    · obtain ⟨h5, hr⟩ := hacc
      rw [if_pos ⟨h5, hr⟩]
      constructor
      · intro h
        have hbf := Option.some.inj h
        subst hbf
        refine ⟨by omega, ?_, hr⟩
        unfold fitSVISlice
        rw [if_neg (by omega)]
      · rintro ⟨h4, hfs, hrf⟩
        unfold fitSVISlice at hfs
        rw [if_neg (by omega)] at hfs
        exact hfs
    · rw [if_neg hacc]
      constructor
      · intro h
        exact absurd h (by simp)
      · rintro ⟨h4, hfs, hrf⟩
        exfalso
        unfold fitSVISlice at hfs
        split at hfs
        next hlt => simp at hfs
        next hge =>
          have hbf := Option.some.inj hfs
          exact hacc ⟨by omega, by rw [hbf]; exact hrf⟩

end ClaimC8

/-- A flat-smile surface point at a fixed expiry, used to instantiate the
surface acceptance characterization on concrete data. -/
def surfacePointC8 (strike moneyness : ℚ) : SurfacePoint :=
  { strike := strike
    expiry := "2026-10-12"
    daysToExpiry := 365
    moneyness := moneyness
    callIV := some (1 / 5)
    putIV := none
    callPrice := 0
    putPrice := 0
    callBid := 0
    callAsk := 0
    putBid := 0
    putAsk := 0
    callVolume := 0
    putVolume := 0
    callOI := 0
    putOI := 0
    callDelta := none
    putDelta := none
    gamma := none
    vega := none }

/-- Five points on one expiry, enough for the slice-size guard and a single
expiry group; they instantiate the grouping hypothesis of the acceptance
characterization. -/
def sviSliceExampleC8 : List SurfacePoint :=
  [surfacePointC8 80 (-2), surfacePointC8 90 (-1), surfacePointC8 100 0,
   surfacePointC8 110 1, surfacePointC8 120 2]

theorem sviSlice_minPoints_and_acceptance_witness :
    (fitSVISlice (fun _ => 0) [] 1 = none ↔ ([] : List SVIPoint).length < 5) ∧
    mapGet (groupByExpiry sviSliceExampleC8) 365 = some sviSliceExampleC8 ∧
    (mapGet (generateSVISurface (fun _ => 0) (fun _ => 0) sviSliceExampleC8 100
          ⟨50, 150⟩ ⟨30, 400⟩ 30).sviFits 365 =
        some (fitSVIBody (fun _ => 0) (sviFitData sviSliceExampleC8) (365 / 365)) ↔
      4 ≤ (sviFitData sviSliceExampleC8).length ∧
        fitSVISlice (fun _ => 0) (sviFitData sviSliceExampleC8) (365 / 365) =
          some (fitSVIBody (fun _ => 0) (sviFitData sviSliceExampleC8) (365 / 365)) ∧
        zGt (fitSVIBody (fun _ => 0) (sviFitData sviSliceExampleC8) (365 / 365)).r2
          (3 / 10) = true) := by
  have hgroup : mapGet (groupByExpiry sviSliceExampleC8) 365 = some sviSliceExampleC8 := by
    simp [groupByExpiry, mapSet, mapGet, sviSliceExampleC8, surfacePointC8]
  exact ⟨(sviSlice_minPoints_and_acceptance (fun _ => 0) (fun _ => 0)).1 [] 1,
    hgroup,
    (sviSlice_minPoints_and_acceptance (fun _ => 0) (fun _ => 0)).2
      sviSliceExampleC8 100 ⟨50, 150⟩ ⟨30, 400⟩ 30 365 sviSliceExampleC8
      (fitSVIBody (fun _ => 0) (sviFitData sviSliceExampleC8) (365 / 365)) hgroup⟩
